import Mathlib

/-!
Verification of the surface/event-pump layer of an EGL GBM platform library.

The development shallowly embeds the two source files of the repository:

* `src/gbm-surface.c`: the per-surface image slot pool, the stream event
  pump, and the surface lifecycle entry points.  External collaborators
  (the EGL driver's event queue, image creation, acquire/release, DMA-BUF
  export, and GBM buffer-object import) are modelled as oracle inputs, and
  every call the code makes into a collaborator is recorded in an effect
  list so that theorems can speak about which collaborator operations were
  (or were not) invoked.
* `src/gbm-handle.h`: the reference-counted object registry.  Only the
  header is present in the sources, so the registry semantics are modelled
  from the specification (see `regStep`).

Machine pointers and EGL handles are modelled as natural numbers wrapped in
`Option`: `none` stands for `NULL` / `EGL_NO_IMAGE_KHR` / `EGL_NO_SYNC_KHR`
and `some n` for a non-null value.  Assertions compiled out under `NDEBUG`
are modelled by the branch the release build takes.  Undefined behaviour is
modelled by distinguished `undef` outcomes: dereferencing the null `bo`
pointer in `eGbmSurfaceLockFrontBuffer` when the acquired image matches no
slot, and dereferencing a null native window in the `surfAttrs` initializer
of `eGbmCreatePlatformWindowSurfaceHook`, which the source evaluates before
its null check of the window.
-/

set_option maxRecDepth 4000

def EGL_SUCCESS : Nat := 0x3000

def EGL_BAD_ALLOC : Nat := 0x3003

def EGL_BAD_CONFIG : Nat := 0x3005

def EGL_BAD_NATIVE_WINDOW : Nat := 0x300B

def EGL_BAD_SURFACE : Nat := 0x300D

def EGL_STREAM_BIT_KHR : Nat := 0x800

def MAX_STREAM_IMAGES : Nat := 10

/-- One entry of the `images` array of `GbmSurfaceRec`: an EGLImage handle
(`none` = `EGL_NO_IMAGE_KHR`), a gbm buffer-object pointer (`none` = `NULL`)
and the `locked` flag. -/
structure SurfImage where
  image : Option Nat
  bo : Option Nat
  locked : Bool
deriving DecidableEq

/-- The `GbmSurfaceRec` state: the stream and producer-surface handles, the
image slot array and the `freeImages` flag. -/
structure GbmSurface where
  stream : Option Nat
  egl : Option Nat
  images : List SurfImage
  freeImages : Bool
deriving DecidableEq

/-- An event returned by `QueryStreamConsumerEventNV`.  The `add` event
carries the value the subsequent `CreateImageKHR` call would return (this
is the oracle for that collaborator call). -/
inductive StreamEvent where
  | available : StreamEvent
  | add : Option Nat → StreamEvent
  | remove : Nat → StreamEvent
deriving DecidableEq

/-- A call made into an external collaborator, recorded in program order. -/
inductive ExtCall where
  | createImage : Option Nat → ExtCall
  | destroyImage : Nat → ExtCall
  | boDestroy : Nat → ExtCall
  | streamAcquire : Option Nat → ExtCall
  | streamRelease : Nat → Option Nat → ExtCall
  | exportQuery : Nat → ExtCall
  | exportImage : Nat → ExtCall
  | boImport : Option Nat → ExtCall
  | setError : Nat → ExtCall
  | destroySurface : Nat → ExtCall
  | destroyStream : Nat → ExtCall
  | unrefDisplay : ExtCall
deriving DecidableEq

/-- Write `f` through to the slot at index `i`, leaving all other slots
untouched (the effect of a single `surf->images[i].field = v` statement). -/
def modifySlot (f : SurfImage → SurfImage) : Nat → List SurfImage → List SurfImage
  | _, [] => []
  | 0, sl :: rest => f sl :: rest
  | i + 1, sl :: rest => sl :: modifySlot f i rest

/-- Index of the first slot satisfying `p`: the `for` scan used by
`AddSurfImage`, `RemoveSurfImage`, `eGbmSurfaceLockFrontBuffer` and
`eGbmSurfaceReleaseBuffer`. -/
def findSlot (p : SurfImage → Bool) : List SurfImage → Option Nat
  | [] => none
  | sl :: rest => if p sl then some 0 else (findSlot p rest).map (· + 1)

/-- The emptiness test of `AddSurfImage`: no image handle and no buffer
object. -/
def emptySlotPred (sl : SurfImage) : Bool := sl.image.isNone && sl.bo.isNone

/-- `AddSurfImage`: claim the first fully empty slot and store the result of
`CreateImageKHR` (the `newImg` oracle) into it; report `false` when no slot
is empty or image creation failed. -/
def AddSurfImage (newImg : Option Nat) (surf : GbmSurface) :
    Bool × GbmSurface × List ExtCall :=
  match findSlot emptySlotPred surf.images with
  | none => (false, surf, [])
  | some i =>
    let surf' := { surf with
      images := modifySlot (fun sl => { sl with image := newImg }) i surf.images }
    match newImg with
    | none => (false, surf', [ExtCall.createImage none])
    | some img => (true, surf', [ExtCall.createImage (some img)])

/-- `RemoveSurfImage`: find the slot holding `img`, destroy the image and
clear the slot's image handle; when the slot is unlocked and holds a buffer
object, destroy and clear that as well. -/
def RemoveSurfImage (img : Nat) (surf : GbmSurface) :
    GbmSurface × List ExtCall :=
  match findSlot (fun sl => sl.image == some img) surf.images with
  | none => (surf, [])
  | some i =>
    match surf.images[i]? with
    | none => (surf, [])
    | some sl =>
      match sl.locked, sl.bo with
      | false, some b =>
        ({ surf with
           images := modifySlot (fun s => { s with image := none, bo := none })
             i surf.images },
         [ExtCall.destroyImage img, ExtCall.boDestroy b])
      | _, _ =>
        ({ surf with
           images := modifySlot (fun s => { s with image := none }) i surf.images },
         [ExtCall.destroyImage img])

/-- Result of one event-pump call: the C return value, the surface state,
the events still queued when the loop exited, and the collaborator calls
made. -/
structure PumpResult where
  ok : Bool
  surf : GbmSurface
  remaining : List StreamEvent
  effs : List ExtCall
deriving DecidableEq

/-- The `do`/`while (!surf->freeImages)` loop body of `PumpSurfEvents`:
an exhausted queue models `QueryStreamConsumerEventNV` returning a status
other than `EGL_TRUE` (the `break`). -/
def PumpLoop : List StreamEvent → GbmSurface → PumpResult
  | [], surf => ⟨true, surf, [], []⟩
  | StreamEvent.available :: rest, surf =>
    ⟨true, { surf with freeImages := true }, rest, []⟩
  | StreamEvent.add newImg :: rest, surf =>
    let r := AddSurfImage newImg surf
    if r.1 = false then ⟨false, r.2.1, rest, r.2.2⟩
    else if r.2.1.freeImages then ⟨true, r.2.1, rest, r.2.2⟩
    else
      let p := PumpLoop rest r.2.1
      ⟨p.ok, p.surf, p.remaining, r.2.2 ++ p.effs⟩
  | StreamEvent.remove img :: rest, surf =>
    let r := RemoveSurfImage img surf
    if r.1.freeImages then ⟨true, r.1, rest, r.2⟩
    else
      let p := PumpLoop rest r.1
      ⟨p.ok, p.surf, p.remaining, r.2 ++ p.effs⟩

/-- `PumpSurfEvents`: reset `freeImages`, then drain events until the
sentinel (or a query failure, or an `AddSurfImage` failure). -/
def PumpSurfEvents (events : List StreamEvent) (surf : GbmSurface) : PumpResult :=
  PumpLoop events { surf with freeImages := false }

/-- Result of `eGbmSurfaceHasFreeBuffers`: the C `int` return value plus the
surface state, unconsumed events and collaborator calls. -/
structure HasFreeResult where
  ret : Nat
  surf : Option GbmSurface
  remaining : List StreamEvent
  effs : List ExtCall
deriving DecidableEq

/-- `eGbmSurfaceHasFreeBuffers`: `surfOpt` is the result of resolving the
native window (`none` when `GetSurf` yields `NULL`). -/
def eGbmSurfaceHasFreeBuffers (surfOpt : Option GbmSurface)
    (events : List StreamEvent) : HasFreeResult :=
  match surfOpt with
  | none => ⟨0, none, events, []⟩
  | some surf =>
    if surf.freeImages then ⟨1, some surf, events, []⟩
    else
      let p := PumpSurfEvents events surf
      if p.ok then ⟨if p.surf.freeImages then 1 else 0, some p.surf, p.remaining, p.effs⟩
      else ⟨0, some p.surf, p.remaining, p.effs⟩

/-- Return value of `eGbmSurfaceLockFrontBuffer`: a buffer object, `NULL`,
or the undefined behaviour reached when the acquired image matches no slot
(the `assert(bo)` / null dereference path). -/
inductive LockResult where
  | ok : Nat → LockResult
  | nullret : LockResult
  | undef : LockResult
deriving DecidableEq

/-- Oracle answers for the collaborator calls `eGbmSurfaceLockFrontBuffer`
makes: `StreamAcquireImageNV`, `ExportDMABUFImageQueryMESA` (format, plane
count, modifier), `ExportDMABUFImageMESA` (fd, stride, offset) and
`gbm_bo_import`. -/
structure LockOracle where
  acquire : Option Nat
  exportQuery : Option (Nat × Nat × Nat)
  exportImage : Option (Nat × Nat × Nat)
  boImport : Option Nat
deriving DecidableEq

/-- Outcome of `eGbmSurfaceLockFrontBuffer`. -/
structure LockOutcome where
  res : LockResult
  surf : Option GbmSurface
  remaining : List StreamEvent
  effs : List ExtCall
deriving DecidableEq

/-- The `fail:` label of `eGbmSurfaceLockFrontBuffer`: unlock slot `i`,
report `EGL_BAD_ALLOC`, release the acquired image with no sync object and
return `NULL`. -/
def lockFail (surf : GbmSurface) (i : Nat) (img : Nat)
    (rem : List StreamEvent) (effs : List ExtCall) : LockOutcome :=
  ⟨LockResult.nullret,
   some { surf with images := modifySlot (fun s => { s with locked := false }) i surf.images },
   rem,
   effs ++ [ExtCall.setError EGL_BAD_ALLOC, ExtCall.streamRelease img none]⟩

/-- `eGbmSurfaceLockFrontBuffer`: pump, acquire, find and lock the matching
slot, and materialize its buffer object unless already cached. -/
def eGbmSurfaceLockFrontBuffer (surfOpt : Option GbmSurface)
    (events : List StreamEvent) (o : LockOracle) : LockOutcome :=
  match surfOpt with
  | none => ⟨LockResult.nullret, none, events, []⟩
  | some surf =>
    let p := PumpSurfEvents events surf
    if p.ok = false then ⟨LockResult.nullret, some p.surf, p.remaining, p.effs⟩
    else
      match o.acquire with
      | none =>
        ⟨LockResult.nullret, some p.surf, p.remaining,
         p.effs ++ [ExtCall.streamAcquire none, ExtCall.setError EGL_BAD_SURFACE]⟩
      | some img =>
        let surf1 := { p.surf with freeImages := false }
        let effs0 := p.effs ++ [ExtCall.streamAcquire (some img)]
        match findSlot (fun sl => sl.image == some img) surf1.images with
        | none => ⟨LockResult.undef, some surf1, p.remaining, effs0⟩
        | some i =>
          let images2 := modifySlot (fun s => { s with locked := true }) i surf1.images
          let surf2 := { surf1 with images := images2 }
          match images2[i]? with
          | none => ⟨LockResult.undef, some surf2, p.remaining, effs0⟩
          | some sl =>
            match sl.bo with
            | some b => ⟨LockResult.ok b, some surf2, p.remaining, effs0⟩
            | none =>
              match o.exportQuery with
              | none => lockFail surf2 i img p.remaining (effs0 ++ [ExtCall.exportQuery img])
              | some _ =>
                match o.exportImage with
                | none =>
                  lockFail surf2 i img p.remaining
                    (effs0 ++ [ExtCall.exportQuery img, ExtCall.exportImage img])
                | some _ =>
                  match o.boImport with
                  | none =>
                    lockFail surf2 i img p.remaining
                      (effs0 ++ [ExtCall.exportQuery img, ExtCall.exportImage img,
                                 ExtCall.boImport none])
                  | some b =>
                    ⟨LockResult.ok b,
                     some { surf2 with
                       images := modifySlot (fun s => { s with bo := some b }) i images2 },
                     p.remaining,
                     effs0 ++ [ExtCall.exportQuery img, ExtCall.exportImage img,
                               ExtCall.boImport (some b)]⟩

/-- Outcome of `eGbmSurfaceReleaseBuffer`. -/
structure ReleaseResult where
  surf : Option GbmSurface
  effs : List ExtCall
deriving DecidableEq

/-- `eGbmSurfaceReleaseBuffer`: find the slot holding `bo`, clear its lock;
when its image was removed while locked, destroy the buffer object (the bo
field is not cleared), otherwise release the image back to the stream with
no sync object. -/
def eGbmSurfaceReleaseBuffer (surfOpt : Option GbmSurface)
    (boOpt : Option Nat) : ReleaseResult :=
  match surfOpt, boOpt with
  | none, _ => ⟨surfOpt, []⟩
  | some _, none => ⟨surfOpt, []⟩
  | some surf, some b =>
    match findSlot (fun sl => sl.bo == some b) surf.images with
    | none => ⟨some surf, []⟩
    | some i =>
      match surf.images[i]? with
      | none => ⟨some surf, []⟩
      | some sl =>
        let surf' := { surf with
          images := modifySlot (fun s => { s with locked := false }) i surf.images }
        match sl.image with
        | none => ⟨some surf', [ExtCall.boDestroy b]⟩
        | some img => ⟨some surf', [ExtCall.streamRelease img none]⟩

/-- The teardown `FreeSurface` performs for one slot: destroy a live image
and destroy a cached buffer object. -/
def slotFreeEffs (sl : SurfImage) : List ExtCall :=
  (match sl.image with
   | some img => [ExtCall.destroyImage img]
   | none => []) ++
  (match sl.bo with
   | some b => [ExtCall.boDestroy b]
   | none => [])

/-- `FreeSurface` (the non-null case): tear down every slot, the producer
surface, the stream, and drop the display reference. -/
def FreeSurface (surf : GbmSurface) : List ExtCall :=
  (surf.images.map slotFreeEffs).flatten ++
  (match surf.egl with
   | some e => [ExtCall.destroySurface e]
   | none => []) ++
  (match surf.stream with
   | some st => [ExtCall.destroyStream st]
   | none => []) ++
  [ExtCall.unrefDisplay]

/-- Oracle answers for the collaborator calls of
`eGbmCreatePlatformWindowSurfaceHook`, in program order: handle resolution,
native window non-null, `GetConfigAttrib`, `calloc`, `CreateStreamKHR`,
`StreamImageConsumerConnectNV`, `CreateStreamProducerSurfaceKHR`, the
initial pump's event queue, and `eGbmAddObject`. -/
structure CreateOracle where
  dpyResolves : Bool
  nativeWin : Bool
  configAttrib : Option Nat
  callocOk : Bool
  createStream : Option Nat
  consumerConnect : Bool
  createProducerSurface : Option Nat
  events : List StreamEvent
  addObject : Bool
deriving DecidableEq

/-- Result of `eGbmCreatePlatformWindowSurfaceHook`: a created surface, a
returned `EGL_NO_SURFACE`, or the undefined behaviour reached when the
`surfAttrs` initializer reads `s->v0.width` from a null native window — that
read happens at function entry, before the `if (!s)` check. -/
inductive CreateOutcome where
  | ok : GbmSurface → CreateOutcome
  | err : CreateOutcome
  | undef : CreateOutcome
deriving DecidableEq

/-- Outcome of `eGbmCreatePlatformWindowSurfaceHook` together with the
display's reference count afterwards, whether the surface ended up
registered, and the collaborator calls made after the initial handle
resolution. -/
structure CreateResult where
  outcome : CreateOutcome
  dpyRefCount : Nat
  registered : Bool
  effs : List ExtCall
deriving DecidableEq

/-- The zeroed slot produced by `calloc`. -/
def emptySurfImage : SurfImage := ⟨none, none, false⟩

/-- `eGbmCreatePlatformWindowSurfaceHook`, tracking the owning display's
reference count `r0` across `eGbmRefHandle` and any `FreeSurface` teardown.
`eGbmRefHandle` runs first (it is the first initializer), so the display
reference is taken even on paths that fail immediately afterwards.  A null
native window is undefined behaviour: the `surfAttrs` initializer
dereferences it before the function's null check, so the
`EGL_BAD_NATIVE_WINDOW` branch is unreachable without prior undefined
behaviour.  When a step before the `calloc` fails, `surf` is still `NULL`,
so the `fail:` label's `FreeSurface(&surf->base)` call is a no-op and in
particular does not drop the display reference. -/
def eGbmCreatePlatformWindowSurfaceHook (o : CreateOracle) (r0 : Nat) :
    CreateResult :=
  if o.nativeWin = false then
    ⟨CreateOutcome.undef, if o.dpyResolves then r0 + 1 else r0, false, []⟩
  else if o.dpyResolves = false then ⟨CreateOutcome.err, r0, false, []⟩
  else
    match o.configAttrib with
    | none => ⟨CreateOutcome.err, r0 + 1, false, [ExtCall.setError EGL_BAD_CONFIG]⟩
    | some surfType =>
      if surfType &&& EGL_STREAM_BIT_KHR = 0 then
        ⟨CreateOutcome.err, r0 + 1, false, [ExtCall.setError EGL_BAD_CONFIG]⟩
      else if o.callocOk = false then
        ⟨CreateOutcome.err, r0 + 1, false, [ExtCall.setError EGL_BAD_ALLOC]⟩
      else
        let surf0 : GbmSurface :=
          ⟨none, none, List.replicate MAX_STREAM_IMAGES emptySurfImage, false⟩
        match o.createStream with
        | none =>
          ⟨CreateOutcome.err, r0, false, FreeSurface surf0 ++ [ExtCall.setError EGL_SUCCESS]⟩
        | some st =>
          let surf1 := { surf0 with stream := some st }
          if o.consumerConnect = false then
            ⟨CreateOutcome.err, r0, false, FreeSurface surf1 ++ [ExtCall.setError EGL_SUCCESS]⟩
          else
            match o.createProducerSurface with
            | none =>
              ⟨CreateOutcome.err, r0, false, FreeSurface surf1 ++ [ExtCall.setError EGL_SUCCESS]⟩
            | some e =>
              let surf2 := { surf1 with egl := some e }
              let p := PumpSurfEvents o.events surf2
              if p.ok = false then
                ⟨CreateOutcome.err, r0, false,
                 p.effs ++ FreeSurface p.surf ++ [ExtCall.setError EGL_BAD_ALLOC]⟩
              else if o.addObject = false then
                ⟨CreateOutcome.err, r0, false,
                 p.effs ++ FreeSurface p.surf ++ [ExtCall.setError EGL_BAD_ALLOC]⟩
              else
                ⟨CreateOutcome.ok p.surf, r0 + 1, true, p.effs⟩

/-- Modelled from the spec: the handle registry implementation
(`gbm-handle.c`) is not under `src/`, only its interface `gbm-handle.h` is.
The state of one registered object: its reference count and how many times
its destroy action has fired. -/
structure RegObj where
  refCount : Nat
  destroyCount : Nat
deriving DecidableEq

/-- Modelled from the spec: an operation applied to a registered object
after registration (registration itself holds the initial reference). -/
inductive RegOp where
  | resolveAndRef : RegOp
  | unref : RegOp
deriving DecidableEq

/-- Modelled from the spec: `resolveAndRef` validates liveness (refcount
still positive) and increments, otherwise reports not-found and leaves the
object alone; `unref` decrements and fires the destroy action exactly at
the transition to zero.  An `unref` of an already-destroyed object is a
caller bug that the registry is specified to survive safely, modelled as a
no-op. -/
def regStep (op : RegOp) (o : RegObj) : RegObj :=
  match op with
  | RegOp.resolveAndRef =>
    if o.refCount = 0 then o else ⟨o.refCount + 1, o.destroyCount⟩
  | RegOp.unref =>
    if o.refCount = 0 then o
    else if o.refCount = 1 then ⟨0, o.destroyCount + 1⟩
    else ⟨o.refCount - 1, o.destroyCount⟩

/-- Modelled from the spec: run a sequence of registry operations. -/
def regRun (ops : List RegOp) (o : RegObj) : RegObj :=
  ops.foldl (fun acc op => regStep op acc) o

/-- The refcount invariant: either the object is still alive (no destroy
fired, refcount positive) or it was destroyed exactly once and its refcount
is zero. -/
def RegInv (o : RegObj) : Prop :=
  (o.destroyCount = 0 ∧ 1 ≤ o.refCount) ∨ (o.destroyCount = 1 ∧ o.refCount = 0)

/-- An event trace is benign for frame `img` when it never removes `img`
and never announces a newly created image equal to `img`: the pipeline
traffic allowed by a `never removed` frame identity. -/
def evAllowed (img : Nat) : StreamEvent → Bool
  | StreamEvent.remove i => !(i == img)
  | StreamEvent.add (some i) => !(i == img)
  | _ => true

/-- How one slot can change across pump traffic that is benign for `img`:
a slot holding `img` is untouched, a slot not holding `img` never gains it,
and a buffer object pointer is only ever kept or cleared, never invented. -/
def SlotEvolves (img : Nat) (a b : SurfImage) : Prop :=
  (a.image = some img → b = a) ∧
  (a.image ≠ some img → b.image ≠ some img) ∧
  (b.bo = a.bo ∨ b.bo = none)

theorem modifySlot_length (f : SurfImage → SurfImage) :
    ∀ (i : Nat) (l : List SurfImage), (modifySlot f i l).length = l.length := by
  intro i l
  induction l generalizing i with
  | nil => simp [modifySlot]
  | cons sl rest ih =>
    cases i with
    | zero => simp [modifySlot]
    | succ i => simp [modifySlot, ih i]

theorem modifySlot_getElem_ne (f : SurfImage → SurfImage) :
    ∀ (i j : Nat) (l : List SurfImage), j ≠ i →
      (modifySlot f i l)[j]? = l[j]? := by
  intro i j l
  induction l generalizing i j with
  | nil => intro _; simp [modifySlot]
  | cons sl rest ih =>
    intro hne
    cases i with
    | zero =>
      cases j with
      | zero => exact absurd rfl hne
      | succ j => simp [modifySlot]
    | succ i =>
      cases j with
      | zero => simp [modifySlot]
      | succ j =>
        simp only [modifySlot, List.getElem?_cons_succ]
        exact ih i j (fun h => hne (by rw [h]))

theorem modifySlot_getElem_eq (f : SurfImage → SurfImage) :
    ∀ (i : Nat) (l : List SurfImage),
      (modifySlot f i l)[i]? = (l[i]?).map f := by
  intro i l
  induction l generalizing i with
  | nil => simp [modifySlot]
  | cons sl rest ih =>
    cases i with
    | zero => simp [modifySlot]
    | succ i =>
      simp only [modifySlot, List.getElem?_cons_succ]
      exact ih i

theorem findSlot_some (p : SurfImage → Bool) :
    ∀ (l : List SurfImage) (i : Nat), findSlot p l = some i →
      ∃ sl, l[i]? = some sl ∧ p sl = true := by
  intro l
  induction l with
  | nil => intro i h; simp [findSlot] at h
  | cons sl rest ih =>
    intro i h
    simp only [findSlot] at h
    by_cases hp : p sl
    · simp [hp] at h
      exact ⟨sl, by simp [← h], hp⟩
    · simp [hp] at h
      obtain ⟨i', hi', rfl⟩ := h
      obtain ⟨sl', hget, hpsl'⟩ := ih i' hi'
      exact ⟨sl', by simpa using hget, hpsl'⟩

theorem findSlot_min (p : SurfImage → Bool) :
    ∀ (l : List SurfImage) (i : Nat), findSlot p l = some i →
      ∀ (j : Nat) (slj : SurfImage), j < i → l[j]? = some slj → p slj = false := by
  intro l
  induction l with
  | nil => intro i h; simp [findSlot] at h
  | cons sl rest ih =>
    intro i h j slj hj hget
    simp only [findSlot] at h
    by_cases hp : p sl
    · simp [hp] at h
      omega
    · simp [hp] at h
      obtain ⟨i', hi', rfl⟩ := h
      cases j with
      | zero =>
        simp at hget
        subst hget
        exact eq_false_of_ne_true hp
      | succ j =>
        simp at hget
        exact ih i' hi' j slj (by omega) hget

theorem findSlot_eq_some_of (p : SurfImage → Bool) :
    ∀ (l : List SurfImage) (i : Nat) (sl : SurfImage),
      l[i]? = some sl → p sl = true →
      (∀ (j : Nat) (slj : SurfImage), j < i → l[j]? = some slj → p slj = false) →
      findSlot p l = some i := by
  intro l
  induction l with
  | nil => intro i sl h; simp at h
  | cons sl0 rest ih =>
    intro i sl hget hp hmin
    cases i with
    | zero =>
      simp at hget
      subst hget
      simp [findSlot, hp]
    | succ i =>
      have h0 : p sl0 = false := hmin 0 sl0 (Nat.succ_pos i) (by simp)
      simp at hget
      have := ih i sl hget hp
        (fun j slj hj hg => hmin (j + 1) slj (by omega) (by simpa using hg))
      simp [findSlot, h0, this]

theorem findSlot_none (p : SurfImage → Bool) :
    ∀ (l : List SurfImage), findSlot p l = none ↔ ∀ sl ∈ l, p sl = false := by
  intro l
  induction l with
  | nil => simp [findSlot]
  | cons sl rest ih =>
    by_cases hp : p sl
    · simp [findSlot, hp]
    · simp [findSlot, hp, ih, eq_false_of_ne_true hp]

theorem AddSurfImage_freeImages (newImg : Option Nat) (surf : GbmSurface) :
    (AddSurfImage newImg surf).2.1.freeImages = surf.freeImages := by
  cases h : findSlot emptySlotPred surf.images <;> cases newImg <;>
    simp [AddSurfImage, h]

theorem RemoveSurfImage_freeImages (img : Nat) (surf : GbmSurface) :
    (RemoveSurfImage img surf).1.freeImages = surf.freeImages := by
  unfold RemoveSurfImage
  split
  · rfl
  · split
    · rfl
    · split <;> rfl

theorem PumpLoop_nil (surf : GbmSurface) : PumpLoop [] surf = ⟨true, surf, [], []⟩ := rfl

theorem PumpLoop_available (rest : List StreamEvent) (surf : GbmSurface) :
    PumpLoop (StreamEvent.available :: rest) surf =
      ⟨true, { surf with freeImages := true }, rest, []⟩ := rfl

theorem PumpLoop_add (newImg : Option Nat) (rest : List StreamEvent) (surf : GbmSurface) :
    PumpLoop (StreamEvent.add newImg :: rest) surf =
      if (AddSurfImage newImg surf).1 = false then
        ⟨false, (AddSurfImage newImg surf).2.1, rest, (AddSurfImage newImg surf).2.2⟩
      else if (AddSurfImage newImg surf).2.1.freeImages then
        ⟨true, (AddSurfImage newImg surf).2.1, rest, (AddSurfImage newImg surf).2.2⟩
      else
        ⟨(PumpLoop rest (AddSurfImage newImg surf).2.1).ok,
         (PumpLoop rest (AddSurfImage newImg surf).2.1).surf,
         (PumpLoop rest (AddSurfImage newImg surf).2.1).remaining,
         (AddSurfImage newImg surf).2.2 ++ (PumpLoop rest (AddSurfImage newImg surf).2.1).effs⟩ := rfl

theorem PumpLoop_remove (img : Nat) (rest : List StreamEvent) (surf : GbmSurface) :
    PumpLoop (StreamEvent.remove img :: rest) surf =
      if (RemoveSurfImage img surf).1.freeImages then
        ⟨true, (RemoveSurfImage img surf).1, rest, (RemoveSurfImage img surf).2⟩
      else
        ⟨(PumpLoop rest (RemoveSurfImage img surf).1).ok,
         (PumpLoop rest (RemoveSurfImage img surf).1).surf,
         (PumpLoop rest (RemoveSurfImage img surf).1).remaining,
         (RemoveSurfImage img surf).2 ++ (PumpLoop rest (RemoveSurfImage img surf).1).effs⟩ := rfl

theorem pump_sentinel_aux :
    ∀ (evs : List StreamEvent) (surf : GbmSurface), surf.freeImages = false →
      (PumpLoop evs surf).ok = true → (PumpLoop evs surf).remaining ≠ [] →
      ∃ pre, evs = pre ++ StreamEvent.available :: (PumpLoop evs surf).remaining ∧
        (∀ e ∈ pre, e ≠ StreamEvent.available) ∧
        (PumpLoop evs surf).surf.freeImages = true := by
  intro evs
  induction evs with
  | nil => intro surf _ _ hrem; simp [PumpLoop_nil] at hrem
  | cons ev rest ih =>
    intro surf hfi hok hrem
    cases ev with
    | available =>
      refine ⟨[], by simp [PumpLoop_available], by simp, by simp [PumpLoop_available]⟩
    | add newImg =>
      have hfi' : (AddSurfImage newImg surf).2.1.freeImages = false := by
        rw [AddSurfImage_freeImages]; exact hfi
      rw [PumpLoop_add] at hok hrem ⊢
      by_cases hb : (AddSurfImage newImg surf).1 = false
      · rw [if_pos hb] at hok
        simp at hok
      · have hcond : ¬((AddSurfImage newImg surf).2.1.freeImages = true) := by
          simp [hfi']
        rw [if_neg hb, if_neg hcond] at hok hrem ⊢
        obtain ⟨pre, heq, hnav, hfree⟩ := ih _ hfi' hok hrem
        refine ⟨StreamEvent.add newImg :: pre, ?_, by simpa using hnav, hfree⟩
        conv_lhs => rw [heq]
        rfl
    | remove img =>
      have hfi' : (RemoveSurfImage img surf).1.freeImages = false := by
        rw [RemoveSurfImage_freeImages]; exact hfi
      rw [PumpLoop_remove] at hok hrem ⊢
      have hcond : ¬((RemoveSurfImage img surf).1.freeImages = true) := by
        simp [hfi']
      rw [if_neg hcond] at hok hrem ⊢
      obtain ⟨pre, heq, hnav, hfree⟩ := ih _ hfi' hok hrem
      refine ⟨StreamEvent.remove img :: pre, ?_, by simpa using hnav, hfree⟩
      conv_lhs => rw [heq]
      rfl

/-- C1: every pump call resets `freeImages` to false before draining (so the
result is independent of the incoming hint), and whenever the drain loop
stops of its own accord (events still queued, no failure), the consumed
prefix consists of add/remove events followed by exactly one
`frames available` sentinel event, which leaves the hint set. -/
theorem c1_pump_resets_hint_and_stops_at_sentinel :
    (∀ (evs : List StreamEvent) (surf : GbmSurface) (b : Bool),
        PumpSurfEvents evs { surf with freeImages := b } = PumpSurfEvents evs surf) ∧
    (∀ (evs : List StreamEvent) (surf : GbmSurface),
        (PumpSurfEvents evs surf).ok = true →
        (PumpSurfEvents evs surf).remaining ≠ [] →
        ∃ pre, evs = pre ++ StreamEvent.available :: (PumpSurfEvents evs surf).remaining ∧
          (∀ e ∈ pre, e ≠ StreamEvent.available) ∧
          (PumpSurfEvents evs surf).surf.freeImages = true) := by
  constructor
  · intro evs surf b
    rfl
  · intro evs surf hok hrem
    exact pump_sentinel_aux evs { surf with freeImages := false } rfl hok hrem

/-- Witness for C1 at a concrete trace: one add, the sentinel, then a
queued remove that the pump leaves unconsumed. -/
theorem c1_pump_resets_hint_and_stops_at_sentinel_witness :
    ∃ pre,
      [StreamEvent.add (some 1), StreamEvent.available, StreamEvent.remove 1] =
        pre ++ StreamEvent.available ::
          (PumpSurfEvents
            [StreamEvent.add (some 1), StreamEvent.available, StreamEvent.remove 1]
            (GbmSurface.mk none none (List.replicate 10 emptySurfImage) false)).remaining ∧
      (∀ e ∈ pre, e ≠ StreamEvent.available) ∧
      (PumpSurfEvents
        [StreamEvent.add (some 1), StreamEvent.available, StreamEvent.remove 1]
        (GbmSurface.mk none none (List.replicate 10 emptySurfImage) false)).surf.freeImages = true :=
  c1_pump_resets_hint_and_stops_at_sentinel.2 _ _ (by decide) (by decide)

/-- C2: when an `image added` event is processed while no slot of the
10-slot pool is fully empty, the pump returns failure and the surface state
(in particular every slot's image/bo/locked fields) is unchanged; no
collaborator call is made for the failed claim attempt. -/
theorem c2_add_on_full_pool_fails_and_preserves_slots
    (surf : GbmSurface) (newImg : Option Nat) (rest : List StreamEvent)
    (hlen : surf.images.length = MAX_STREAM_IMAGES)
    (hfull : ∀ sl ∈ surf.images, emptySlotPred sl = false) :
    PumpLoop (StreamEvent.add newImg :: rest) surf =
      ⟨false, surf, rest, []⟩ := by
  have _ := hlen
  have hf : findSlot emptySlotPred surf.images = none := (findSlot_none _ _).mpr hfull
  have hA : AddSurfImage newImg surf = (false, surf, []) := by
    simp [AddSurfImage, hf]
  rw [PumpLoop_add, hA]
  simp

/-- Witness for C2 on a pool of ten occupied slots. -/
theorem c2_add_on_full_pool_fails_and_preserves_slots_witness :
    PumpLoop (StreamEvent.add (some 11) :: [StreamEvent.available])
      (GbmSurface.mk none none
        ((List.range 10).map (fun k => SurfImage.mk (some k) none false)) false) =
      ⟨false,
       GbmSurface.mk none none
        ((List.range 10).map (fun k => SurfImage.mk (some k) none false)) false,
       [StreamEvent.available], []⟩ :=
  c2_add_on_full_pool_fails_and_preserves_slots _ _ _ (by decide) (by decide)

theorem pump_fail_freeImages :
    ∀ (evs : List StreamEvent) (surf : GbmSurface), surf.freeImages = false →
      (PumpLoop evs surf).ok = false → (PumpLoop evs surf).surf.freeImages = false := by
  intro evs
  induction evs with
  | nil => intro surf hfi hok; simp [PumpLoop_nil] at hok
  | cons ev rest ih =>
    intro surf hfi hok
    cases ev with
    | available => rw [PumpLoop_available] at hok; simp at hok
    | add newImg =>
      have hfi' : (AddSurfImage newImg surf).2.1.freeImages = false := by
        rw [AddSurfImage_freeImages]; exact hfi
      rw [PumpLoop_add] at hok ⊢
      by_cases hb : (AddSurfImage newImg surf).1 = false
      · rw [if_pos hb]
        exact hfi'
      · have hcond : ¬((AddSurfImage newImg surf).2.1.freeImages = true) := by
          simp [hfi']
        rw [if_neg hb, if_neg hcond] at hok ⊢
        exact ih _ hfi' hok
    | remove img =>
      have hfi' : (RemoveSurfImage img surf).1.freeImages = false := by
        rw [RemoveSurfImage_freeImages]; exact hfi
      rw [PumpLoop_remove] at hok ⊢
      have hcond : ¬((RemoveSurfImage img surf).1.freeImages = true) := by
        simp [hfi']
      rw [if_neg hcond] at hok ⊢
      exact ih _ hfi' hok

theorem PumpSurfEvents_fail_freeImages (evs : List StreamEvent) (surf : GbmSurface)
    (h : (PumpSurfEvents evs surf).ok = false) :
    (PumpSurfEvents evs surf).surf.freeImages = false :=
  pump_fail_freeImages evs { surf with freeImages := false } rfl h

/-- C3: `HasFreeBuffers` returns 0 without touching anything when the
native window no longer resolves to a surface (no error report); it
short-circuits to 1 without pumping when the hint is already set; and
otherwise it pumps once and returns the resulting hint, leaving the pumped
state behind. -/
theorem c3_has_free_buffers_contract :
    (∀ (evs : List StreamEvent),
        eGbmSurfaceHasFreeBuffers none evs = ⟨0, none, evs, []⟩) ∧
    (∀ (surf : GbmSurface) (evs : List StreamEvent), surf.freeImages = true →
        eGbmSurfaceHasFreeBuffers (some surf) evs = ⟨1, some surf, evs, []⟩) ∧
    (∀ (surf : GbmSurface) (evs : List StreamEvent), surf.freeImages = false →
        eGbmSurfaceHasFreeBuffers (some surf) evs =
          ⟨if (PumpSurfEvents evs surf).surf.freeImages then 1 else 0,
           some (PumpSurfEvents evs surf).surf,
           (PumpSurfEvents evs surf).remaining,
           (PumpSurfEvents evs surf).effs⟩) := by
  refine ⟨fun evs => rfl, fun surf evs hfi => by simp [eGbmSurfaceHasFreeBuffers, hfi], ?_⟩
  intro surf evs hfi
  by_cases hok : (PumpSurfEvents evs surf).ok = true
  · simp [eGbmSurfaceHasFreeBuffers, hfi, hok]
  · have hok' : (PumpSurfEvents evs surf).ok = false := by
      revert hok; cases (PumpSurfEvents evs surf).ok <;> simp
    have hfree : (PumpSurfEvents evs surf).surf.freeImages = false :=
      PumpSurfEvents_fail_freeImages evs surf hok'
    simp [eGbmSurfaceHasFreeBuffers, hfi, hok', hfree]

/-- Witness for C3: a surface with the hint set short-circuits, and one
without the hint pumps a single `available` event. -/
theorem c3_has_free_buffers_contract_witness :
    eGbmSurfaceHasFreeBuffers
        (some (GbmSurface.mk none none (List.replicate 10 emptySurfImage) true))
        [StreamEvent.remove 3] =
      ⟨1, some (GbmSurface.mk none none (List.replicate 10 emptySurfImage) true),
       [StreamEvent.remove 3], []⟩ ∧
    eGbmSurfaceHasFreeBuffers
        (some (GbmSurface.mk none none (List.replicate 10 emptySurfImage) false))
        [StreamEvent.available] =
      ⟨if (PumpSurfEvents [StreamEvent.available]
            (GbmSurface.mk none none (List.replicate 10 emptySurfImage) false)).surf.freeImages
        then 1 else 0,
       some (PumpSurfEvents [StreamEvent.available]
         (GbmSurface.mk none none (List.replicate 10 emptySurfImage) false)).surf,
       (PumpSurfEvents [StreamEvent.available]
         (GbmSurface.mk none none (List.replicate 10 emptySurfImage) false)).remaining,
       (PumpSurfEvents [StreamEvent.available]
         (GbmSurface.mk none none (List.replicate 10 emptySurfImage) false)).effs⟩ :=
  ⟨c3_has_free_buffers_contract.2.1 _ _ rfl, c3_has_free_buffers_contract.2.2 _ _ rfl⟩

theorem getElem?_some_lt {l : List SurfImage} {i : Nat} {a : SurfImage}
    (h : l[i]? = some a) : i < l.length := by
  by_contra hge
  rw [List.getElem?_eq_none (by omega)] at h
  simp at h

theorem AddSurfImage_images_length (newImg : Option Nat) (surf : GbmSurface) :
    (AddSurfImage newImg surf).2.1.images.length = surf.images.length := by
  cases h : findSlot emptySlotPred surf.images <;> cases newImg <;>
    simp [AddSurfImage, h, modifySlot_length]

theorem RemoveSurfImage_images_length (img : Nat) (surf : GbmSurface) :
    (RemoveSurfImage img surf).1.images.length = surf.images.length := by
  unfold RemoveSurfImage
  split
  · rfl
  · split
    · rfl
    · split <;> simp [modifySlot_length]

theorem PumpLoop_images_length :
    ∀ (evs : List StreamEvent) (surf : GbmSurface),
      (PumpLoop evs surf).surf.images.length = surf.images.length := by
  intro evs
  induction evs with
  | nil => intro surf; rfl
  | cons ev rest ih =>
    intro surf
    cases ev with
    | available => rw [PumpLoop_available]
    | add newImg =>
      rw [PumpLoop_add]
      by_cases hb : (AddSurfImage newImg surf).1 = false
      · rw [if_pos hb]
        exact AddSurfImage_images_length newImg surf
      · rw [if_neg hb]
        by_cases hfi : (AddSurfImage newImg surf).2.1.freeImages = true
        · rw [if_pos hfi]
          exact AddSurfImage_images_length newImg surf
        · rw [if_neg hfi]
          show (PumpLoop rest (AddSurfImage newImg surf).2.1).surf.images.length =
            surf.images.length
          rw [ih _, AddSurfImage_images_length]
    | remove img =>
      rw [PumpLoop_remove]
      by_cases hfi : (RemoveSurfImage img surf).1.freeImages = true
      · rw [if_pos hfi]
        exact RemoveSurfImage_images_length img surf
      · rw [if_neg hfi]
        show (PumpLoop rest (RemoveSurfImage img surf).1).surf.images.length =
          surf.images.length
        rw [ih _, RemoveSurfImage_images_length]

theorem PumpSurfEvents_images_length (evs : List StreamEvent) (surf : GbmSurface) :
    (PumpSurfEvents evs surf).surf.images.length = surf.images.length :=
  PumpLoop_images_length evs { surf with freeImages := false }

/-- C10: whenever the image acquired by `StreamAcquireImageNV` is recorded
in some slot of the pumped surface (as it is when every acquired frame was
announced by a processed `image added` event), the slot scan of
`eGbmSurfaceLockFrontBuffer` finds a matching index inside the 10-slot
array, so the `assert(bo)` path is never reached and every subsequent slot
access (including the failure path's write) stays in bounds. -/
theorem c10_lock_scan_finds_acquired_image
    (surf : GbmSurface) (evs : List StreamEvent) (o : LockOracle) (img : Nat)
    (hok : (PumpSurfEvents evs surf).ok = true)
    (hacq : o.acquire = some img)
    (hmem : ∃ sl ∈ (PumpSurfEvents evs surf).surf.images, sl.image = some img)
    (hlen : surf.images.length = MAX_STREAM_IMAGES) :
    (eGbmSurfaceLockFrontBuffer (some surf) evs o).res ≠ LockResult.undef ∧
    ∃ i, findSlot (fun sl => sl.image == some img)
          (PumpSurfEvents evs surf).surf.images = some i ∧ i < MAX_STREAM_IMAGES := by
  obtain ⟨i, hfind⟩ : ∃ i, findSlot (fun sl => sl.image == some img)
      (PumpSurfEvents evs surf).surf.images = some i := by
    cases h : findSlot (fun sl => sl.image == some img)
        (PumpSurfEvents evs surf).surf.images with
    | some i => exact ⟨i, rfl⟩
    | none =>
      obtain ⟨sl, hsl, himg⟩ := hmem
      have := (findSlot_none _ _).mp h sl hsl
      simp [himg] at this
  obtain ⟨sl', hget, hpred⟩ := findSlot_some _ _ _ hfind
  have hlt : i < MAX_STREAM_IMAGES := by
    have h1 := getElem?_some_lt hget
    rw [PumpSurfEvents_images_length, hlen] at h1
    exact h1
  refine ⟨?_, i, hfind, hlt⟩
  have hget2 : (modifySlot (fun s => { s with locked := true }) i
      (PumpSurfEvents evs surf).surf.images)[i]? =
      some { sl' with locked := true } := by
    rw [modifySlot_getElem_eq, hget]
    rfl
  simp only [eGbmSurfaceLockFrontBuffer, hok, hacq]
  simp only [Bool.true_eq_false, if_false, hfind, hget2]
  cases sl'.bo with
  | some b => simp
  | none =>
    cases o.exportQuery with
    | none => simp [lockFail]
    | some q =>
      cases o.exportImage with
      | none => simp [lockFail]
      | some e =>
        cases o.boImport with
        | none => simp [lockFail]
        | some b => simp

/-- C4: when `eGbmSurfaceLockFrontBuffer` acquires a frame image whose slot
has no cached buffer object and any materialization step (export query,
export, or import) fails, the slot's lock flag is rolled back to false, the
frame is released back to the stream with no sync object, `EGL_BAD_ALLOC`
is reported, and the call returns null. -/
theorem c4_lock_materialization_failure_rollback
    (surf : GbmSurface) (evs : List StreamEvent) (o : LockOracle)
    (img : Nat) (i : Nat) (sl : SurfImage)
    (hok : (PumpSurfEvents evs surf).ok = true)
    (hacq : o.acquire = some img)
    (hfind : findSlot (fun s => s.image == some img)
      (PumpSurfEvents evs surf).surf.images = some i)
    (hget : (PumpSurfEvents evs surf).surf.images[i]? = some sl)
    (hbo : sl.bo = none)
    (hfail : o.exportQuery = none ∨ o.exportImage = none ∨ o.boImport = none) :
    (eGbmSurfaceLockFrontBuffer (some surf) evs o).res = LockResult.nullret ∧
    (∃ surf', (eGbmSurfaceLockFrontBuffer (some surf) evs o).surf = some surf' ∧
       surf'.images[i]? = some { sl with locked := false }) ∧
    ExtCall.setError EGL_BAD_ALLOC ∈ (eGbmSurfaceLockFrontBuffer (some surf) evs o).effs ∧
    ExtCall.streamRelease img none ∈ (eGbmSurfaceLockFrontBuffer (some surf) evs o).effs := by
  have hget2 : (modifySlot (fun s => { s with locked := true }) i
      (PumpSurfEvents evs surf).surf.images)[i]? =
      some { sl with locked := true } := by
    rw [modifySlot_getElem_eq, hget]
    rfl
  have hslot : (modifySlot (fun s => { s with locked := false }) i
      (modifySlot (fun s => { s with locked := true }) i
        (PumpSurfEvents evs surf).surf.images))[i]? =
      some { sl with locked := false } := by
    rw [modifySlot_getElem_eq, hget2]
    rfl
  cases hq : o.exportQuery with
  | none =>
    simp only [eGbmSurfaceLockFrontBuffer, hok, hacq, Bool.true_eq_false, if_false,
      hfind, hget2, hbo, hq]
    exact ⟨rfl, ⟨_, rfl, by simpa [lockFail, hbo] using hslot⟩,
      by simp [lockFail], by simp [lockFail]⟩
  | some q =>
    cases he : o.exportImage with
    | none =>
      simp only [eGbmSurfaceLockFrontBuffer, hok, hacq, Bool.true_eq_false, if_false,
        hfind, hget2, hbo, hq, he]
      exact ⟨rfl, ⟨_, rfl, by simpa [lockFail, hbo] using hslot⟩,
        by simp [lockFail], by simp [lockFail]⟩
    | some e =>
      cases hbi : o.boImport with
      | none =>
        simp only [eGbmSurfaceLockFrontBuffer, hok, hacq, Bool.true_eq_false, if_false,
          hfind, hget2, hbo, hq, he, hbi]
        exact ⟨rfl, ⟨_, rfl, by simpa [lockFail, hbo] using hslot⟩,
          by simp [lockFail], by simp [lockFail]⟩
      | some b =>
        rcases hfail with h | h | h <;> simp_all

/-- Witness for C4: a surface whose slot 0 holds image 5 with no cached
buffer object, an empty event queue, and an export-query failure. -/
theorem c4_lock_materialization_failure_rollback_witness :
    (eGbmSurfaceLockFrontBuffer
        (some (GbmSurface.mk none none
          (SurfImage.mk (some 5) none false :: List.replicate 9 emptySurfImage) false))
        [] (LockOracle.mk (some 5) none none none)).res = LockResult.nullret ∧
    (∃ surf', (eGbmSurfaceLockFrontBuffer
        (some (GbmSurface.mk none none
          (SurfImage.mk (some 5) none false :: List.replicate 9 emptySurfImage) false))
        [] (LockOracle.mk (some 5) none none none)).surf = some surf' ∧
       surf'.images[0]? = some { SurfImage.mk (some 5) none false with locked := false }) ∧
    ExtCall.setError EGL_BAD_ALLOC ∈ (eGbmSurfaceLockFrontBuffer
        (some (GbmSurface.mk none none
          (SurfImage.mk (some 5) none false :: List.replicate 9 emptySurfImage) false))
        [] (LockOracle.mk (some 5) none none none)).effs ∧
    ExtCall.streamRelease 5 none ∈ (eGbmSurfaceLockFrontBuffer
        (some (GbmSurface.mk none none
          (SurfImage.mk (some 5) none false :: List.replicate 9 emptySurfImage) false))
        [] (LockOracle.mk (some 5) none none none)).effs :=
  c4_lock_materialization_failure_rollback _ _ _ 5 0 (SurfImage.mk (some 5) none false)
    (by decide) rfl (by decide) (by decide) rfl (Or.inl rfl)

/-- C5: releasing a buffer object whose slot lost its frame image while
locked clears the lock and destroys the buffer object without calling the
stream's release-frame operation; releasing one whose frame image is still
present clears the lock and calls the stream release (no sync object),
leaving the cached buffer object intact.  In both cases only the slot's
lock flag changes. -/
theorem c5_release_buffer_revoked_vs_present
    (surf : GbmSurface) (b : Nat) (i : Nat) (sl : SurfImage)
    (hfind : findSlot (fun s => s.bo == some b) surf.images = some i)
    (hget : surf.images[i]? = some sl) :
    (sl.image = none →
      eGbmSurfaceReleaseBuffer (some surf) (some b) =
        ⟨some { surf with
           images := modifySlot (fun s => { s with locked := false }) i surf.images },
         [ExtCall.boDestroy b]⟩ ∧
      (modifySlot (fun s => { s with locked := false }) i surf.images)[i]? =
        some { sl with locked := false }) ∧
    (∀ img, sl.image = some img →
      eGbmSurfaceReleaseBuffer (some surf) (some b) =
        ⟨some { surf with
           images := modifySlot (fun s => { s with locked := false }) i surf.images },
         [ExtCall.streamRelease img none]⟩ ∧
      (modifySlot (fun s => { s with locked := false }) i surf.images)[i]? =
        some { sl with locked := false }) := by
  have hslot : (modifySlot (fun s => { s with locked := false }) i surf.images)[i]? =
      some { sl with locked := false } := by
    rw [modifySlot_getElem_eq, hget]
    rfl
  constructor
  · intro himg
    refine ⟨?_, hslot⟩
    simp only [eGbmSurfaceReleaseBuffer, hfind, hget, himg]
  · intro img himg
    refine ⟨?_, hslot⟩
    simp only [eGbmSurfaceReleaseBuffer, hfind, hget, himg]

/-- Witness for C5: slot 0 revoked-while-locked in the first surface, and
slot 0 with a live image 4 in the second. -/
theorem c5_release_buffer_revoked_vs_present_witness :
    (eGbmSurfaceReleaseBuffer
        (some (GbmSurface.mk none none
          (SurfImage.mk none (some 7) true :: List.replicate 9 emptySurfImage) false))
        (some 7) =
      ⟨some (GbmSurface.mk none none
         (modifySlot (fun s => { s with locked := false }) 0
           (SurfImage.mk none (some 7) true :: List.replicate 9 emptySurfImage)) false),
       [ExtCall.boDestroy 7]⟩ ∧
     (modifySlot (fun s => { s with locked := false }) 0
        (SurfImage.mk none (some 7) true :: List.replicate 9 emptySurfImage))[0]? =
       some { SurfImage.mk none (some 7) true with locked := false }) ∧
    (eGbmSurfaceReleaseBuffer
        (some (GbmSurface.mk none none
          (SurfImage.mk (some 4) (some 7) true :: List.replicate 9 emptySurfImage) false))
        (some 7) =
      ⟨some (GbmSurface.mk none none
         (modifySlot (fun s => { s with locked := false }) 0
           (SurfImage.mk (some 4) (some 7) true :: List.replicate 9 emptySurfImage)) false),
       [ExtCall.streamRelease 4 none]⟩ ∧
     (modifySlot (fun s => { s with locked := false }) 0
        (SurfImage.mk (some 4) (some 7) true :: List.replicate 9 emptySurfImage))[0]? =
       some { SurfImage.mk (some 4) (some 7) true with locked := false }) :=
  ⟨(c5_release_buffer_revoked_vs_present _ 7 0 (SurfImage.mk none (some 7) true)
      (by decide) (by decide)).1 rfl,
   (c5_release_buffer_revoked_vs_present _ 7 0 (SurfImage.mk (some 4) (some 7) true)
      (by decide) (by decide)).2 4 rfl⟩

theorem mem_of_getElem?_some {l : List SurfImage} {i : Nat} {a : SurfImage}
    (h : l[i]? = some a) : a ∈ l := by
  induction l generalizing i with
  | nil => simp at h
  | cons x xs ih =>
    cases i with
    | zero =>
      rw [List.getElem?_cons_zero] at h
      cases h
      exact List.mem_cons_self _ _
    | succ i =>
      rw [List.getElem?_cons_succ] at h
      exact List.mem_cons_of_mem _ (ih h)

theorem boDestroy_mem_FreeSurface (surf : GbmSurface) (i : Nat) (sl : SurfImage)
    (b : Nat) (hget : surf.images[i]? = some sl) (hbo : sl.bo = some b) :
    ExtCall.boDestroy b ∈ FreeSurface surf := by
  have hmem : sl ∈ surf.images := mem_of_getElem?_some hget
  unfold FreeSurface
  refine List.mem_append_left _ (List.mem_append_left _ (List.mem_append_left _ ?_))
  rw [List.mem_flatten]
  exact ⟨slotFreeEffs sl, List.mem_map_of_mem _ hmem, by simp [slotFreeEffs, hbo]⟩

/-- C9: releasing the buffer object of a slot whose image was revoked while
locked destroys the buffer object but leaves every slot field other than
`locked` unchanged — in particular the `bo` field still holds the destroyed
pointer.  Consequently the add-image scan never treats that slot as fully
empty again, and `FreeSurface` passes the same pointer to the buffer-object
destructor a second time. -/
theorem c9_release_revoked_slot_leaves_stale_bo_pointer
    (surf : GbmSurface) (b : Nat) (i : Nat) (sl : SurfImage)
    (hfind : findSlot (fun s => s.bo == some b) surf.images = some i)
    (hget : surf.images[i]? = some sl)
    (himg : sl.image = none) (hbo : sl.bo = some b) (_hlk : sl.locked = true) :
    ∃ surf', (eGbmSurfaceReleaseBuffer (some surf) (some b)).surf = some surf' ∧
      (eGbmSurfaceReleaseBuffer (some surf) (some b)).effs = [ExtCall.boDestroy b] ∧
      surf'.images[i]? = some (SurfImage.mk none (some b) false) ∧
      findSlot emptySlotPred surf'.images ≠ some i ∧
      ExtCall.boDestroy b ∈ FreeSurface surf' := by
  have hslot : (modifySlot (fun s => { s with locked := false }) i surf.images)[i]? =
      some (SurfImage.mk none (some b) false) := by
    rw [modifySlot_getElem_eq, hget]
    simp [← himg, ← hbo]
  refine ⟨{ surf with
      images := modifySlot (fun s => { s with locked := false }) i surf.images },
    ?_, ?_, hslot, ?_, ?_⟩
  · simp only [eGbmSurfaceReleaseBuffer, hfind, hget, himg]
  · simp only [eGbmSurfaceReleaseBuffer, hfind, hget, himg]
  · intro hfe
    obtain ⟨slx, hgx, hpx⟩ := findSlot_some _ _ _ hfe
    rw [show ({ surf with
        images := modifySlot (fun s => { s with locked := false }) i surf.images } :
        GbmSurface).images =
      modifySlot (fun s => { s with locked := false }) i surf.images from rfl] at hgx
    rw [hslot] at hgx
    cases hgx
    simp [emptySlotPred] at hpx
  · exact boDestroy_mem_FreeSurface _ i (SurfImage.mk none (some b) false) b hslot rfl

/-- Witness for C9 on a surface whose slot 0 was revoked while locked. -/
theorem c9_release_revoked_slot_leaves_stale_bo_pointer_witness :
    ∃ surf', (eGbmSurfaceReleaseBuffer
        (some (GbmSurface.mk none none
          (SurfImage.mk none (some 7) true :: List.replicate 9 emptySurfImage) false))
        (some 7)).surf = some surf' ∧
      (eGbmSurfaceReleaseBuffer
        (some (GbmSurface.mk none none
          (SurfImage.mk none (some 7) true :: List.replicate 9 emptySurfImage) false))
        (some 7)).effs = [ExtCall.boDestroy 7] ∧
      surf'.images[0]? = some (SurfImage.mk none (some 7) false) ∧
      findSlot emptySlotPred surf'.images ≠ some 0 ∧
      ExtCall.boDestroy 7 ∈ FreeSurface surf' :=
  c9_release_revoked_slot_leaves_stale_bo_pointer _ 7 0 (SurfImage.mk none (some 7) true)
    (by decide) (by decide) rfl rfl rfl

theorem unrefDisplay_mem_FreeSurface (surf : GbmSurface) :
    ExtCall.unrefDisplay ∈ FreeSurface surf := by
  simp [FreeSurface]

theorem create_registered_iff (o : CreateOracle) (r0 : Nat) :
    (eGbmCreatePlatformWindowSurfaceHook o r0).registered = true ↔
      ∃ s, (eGbmCreatePlatformWindowSurfaceHook o r0).outcome = CreateOutcome.ok s := by
  unfold eGbmCreatePlatformWindowSurfaceHook
  dsimp only
  split
  · simp
  · split
    · simp
    · split
      · simp
      · split
        · simp
        · split
          · simp
          · split
            · simp
            · split
              · simp
              · split
                · simp
                · split
                  · simp
                  · split
                    · simp
                    · simp

/-- C7 counterexample: an invalid (null) native window does not reach the
typed-error path at all — the `surfAttrs` initializer dereferences it first,
undefined behaviour with no error reported; an unsupported configuration
reports a typed error but leaves the display reference count incremented
with no display unref; and a stream-creation failure reports `EGL_SUCCESS`
rather than a typed error. -/
theorem c7_create_failure_rollback_counterexample :
    (eGbmCreatePlatformWindowSurfaceHook
        (CreateOracle.mk true false none true none true none [] true) 5).outcome =
      CreateOutcome.undef ∧
    (eGbmCreatePlatformWindowSurfaceHook
        (CreateOracle.mk true false none true none true none [] true) 5).effs = [] ∧
    (eGbmCreatePlatformWindowSurfaceHook
        (CreateOracle.mk true true none true none true none [] true) 5).outcome =
      CreateOutcome.err ∧
    (eGbmCreatePlatformWindowSurfaceHook
        (CreateOracle.mk true true none true none true none [] true) 5).dpyRefCount = 6 ∧
    ExtCall.unrefDisplay ∉
      (eGbmCreatePlatformWindowSurfaceHook
        (CreateOracle.mk true true none true none true none [] true) 5).effs ∧
    ExtCall.setError EGL_BAD_CONFIG ∈
      (eGbmCreatePlatformWindowSurfaceHook
        (CreateOracle.mk true true none true none true none [] true) 5).effs ∧
    ExtCall.setError EGL_SUCCESS ∈
      (eGbmCreatePlatformWindowSurfaceHook
        (CreateOracle.mk true true (some 0x800) true none true none [] true) 5).effs := by
  decide

/-- C7 (amended): any creation failure leaves no surface registered.
Failures after the surface object is allocated tear down everything
allocated so far, including the reference taken on the owning display
(`FreeSurface` unrefs it and the count is restored), though the
stream/consumer/producer-surface failures record `EGL_SUCCESS` rather than
a typed error.  Unsupported-configuration and surface-allocation failures
report a typed error but leak the display reference taken at entry.  An
invalid (null) native window is not a handled failure: the `surfAttrs`
initializer dereferences it before the null check — undefined behaviour,
after the display reference has already been taken. -/
theorem c7_create_failure_rollback_amended (o : CreateOracle) (r0 : Nat) :
    ((eGbmCreatePlatformWindowSurfaceHook o r0).registered = true →
      ∃ s, (eGbmCreatePlatformWindowSurfaceHook o r0).outcome = CreateOutcome.ok s) ∧
    (o.nativeWin = false →
      eGbmCreatePlatformWindowSurfaceHook o r0 =
        ⟨CreateOutcome.undef, if o.dpyResolves then r0 + 1 else r0, false, []⟩) ∧
    (o.nativeWin = true → o.dpyResolves = false →
      eGbmCreatePlatformWindowSurfaceHook o r0 = ⟨CreateOutcome.err, r0, false, []⟩) ∧
    (o.dpyResolves = true → o.nativeWin = true →
      (o.configAttrib = none ∨
       (∃ t, o.configAttrib = some t ∧ t &&& EGL_STREAM_BIT_KHR = 0) ∨
       o.callocOk = false) →
      (eGbmCreatePlatformWindowSurfaceHook o r0).outcome = CreateOutcome.err ∧
      (eGbmCreatePlatformWindowSurfaceHook o r0).dpyRefCount = r0 + 1 ∧
      ExtCall.unrefDisplay ∉ (eGbmCreatePlatformWindowSurfaceHook o r0).effs ∧
      (∃ err, err ≠ EGL_SUCCESS ∧
        ExtCall.setError err ∈ (eGbmCreatePlatformWindowSurfaceHook o r0).effs)) ∧
    (o.dpyResolves = true → o.nativeWin = true →
      (∃ t, o.configAttrib = some t ∧ t &&& EGL_STREAM_BIT_KHR ≠ 0) →
      o.callocOk = true →
      (eGbmCreatePlatformWindowSurfaceHook o r0).outcome = CreateOutcome.err →
      (eGbmCreatePlatformWindowSurfaceHook o r0).dpyRefCount = r0 ∧
      ExtCall.unrefDisplay ∈ (eGbmCreatePlatformWindowSurfaceHook o r0).effs) := by
  refine ⟨?_, ?_, ?_, ?_, ?_⟩
  · exact (create_registered_iff o r0).mp
  · intro hnw
    simp [eGbmCreatePlatformWindowSurfaceHook, hnw]
  · intro hnw hdr
    simp [eGbmCreatePlatformWindowSurfaceHook, hnw, hdr]
  · intro hdr hnw hcase
    cases hca : o.configAttrib with
    | none =>
      have hres : eGbmCreatePlatformWindowSurfaceHook o r0 =
          ⟨CreateOutcome.err, r0 + 1, false, [ExtCall.setError EGL_BAD_CONFIG]⟩ := by
        simp [eGbmCreatePlatformWindowSurfaceHook, hdr, hnw, hca]
      rw [hres]
      exact ⟨rfl, rfl, by simp, EGL_BAD_CONFIG, by decide, by simp⟩
    | some t =>
      by_cases hbit : t &&& EGL_STREAM_BIT_KHR = 0
      · have hres : eGbmCreatePlatformWindowSurfaceHook o r0 =
            ⟨CreateOutcome.err, r0 + 1, false, [ExtCall.setError EGL_BAD_CONFIG]⟩ := by
          simp [eGbmCreatePlatformWindowSurfaceHook, hdr, hnw, hca, hbit]
        rw [hres]
        exact ⟨rfl, rfl, by simp, EGL_BAD_CONFIG, by decide, by simp⟩
      · by_cases hco : o.callocOk = false
        · have hres : eGbmCreatePlatformWindowSurfaceHook o r0 =
              ⟨CreateOutcome.err, r0 + 1, false, [ExtCall.setError EGL_BAD_ALLOC]⟩ := by
            simp [eGbmCreatePlatformWindowSurfaceHook, hdr, hnw, hca, hbit, hco]
          rw [hres]
          exact ⟨rfl, rfl, by simp, EGL_BAD_ALLOC, by decide, by simp⟩
        · rcases hcase with h | ⟨t', h, hb'⟩ | h
          · rw [hca] at h
            cases h
          · rw [hca] at h
            cases h
            exact absurd hb' hbit
          · exact absurd h hco
  · intro hdr hnw ht hco hs
    obtain ⟨t, hca, hbit⟩ := ht
    have hco' : ¬(o.callocOk = false) := by simp [hco]
    cases hcs : o.createStream with
    | none =>
      have hres : eGbmCreatePlatformWindowSurfaceHook o r0 =
          ⟨CreateOutcome.err, r0, false,
           FreeSurface (GbmSurface.mk none none
             (List.replicate MAX_STREAM_IMAGES emptySurfImage) false) ++
             [ExtCall.setError EGL_SUCCESS]⟩ := by
        simp [eGbmCreatePlatformWindowSurfaceHook, hdr, hnw, hca, hbit, hco', hcs]
      rw [hres]
      exact ⟨rfl, by simp [unrefDisplay_mem_FreeSurface]⟩
    | some st =>
      by_cases hcc : o.consumerConnect = false
      · have hres : eGbmCreatePlatformWindowSurfaceHook o r0 =
            ⟨CreateOutcome.err, r0, false,
             FreeSurface (GbmSurface.mk (some st) none
               (List.replicate MAX_STREAM_IMAGES emptySurfImage) false) ++
               [ExtCall.setError EGL_SUCCESS]⟩ := by
          simp [eGbmCreatePlatformWindowSurfaceHook, hdr, hnw, hca, hbit, hco', hcs, hcc]
        rw [hres]
        exact ⟨rfl, by simp [unrefDisplay_mem_FreeSurface]⟩
      · cases hcps : o.createProducerSurface with
        | none =>
          have hres : eGbmCreatePlatformWindowSurfaceHook o r0 =
              ⟨CreateOutcome.err, r0, false,
               FreeSurface (GbmSurface.mk (some st) none
                 (List.replicate MAX_STREAM_IMAGES emptySurfImage) false) ++
                 [ExtCall.setError EGL_SUCCESS]⟩ := by
            simp [eGbmCreatePlatformWindowSurfaceHook, hdr, hnw, hca, hbit, hco', hcs,
              hcc, hcps]
          rw [hres]
          exact ⟨rfl, by simp [unrefDisplay_mem_FreeSurface]⟩
        | some e =>
          cases hok : (PumpSurfEvents o.events (GbmSurface.mk (some st) (some e)
              (List.replicate MAX_STREAM_IMAGES emptySurfImage) false)).ok with
          | false =>
            have hres : eGbmCreatePlatformWindowSurfaceHook o r0 =
                ⟨CreateOutcome.err, r0, false,
                 (PumpSurfEvents o.events (GbmSurface.mk (some st) (some e)
                   (List.replicate MAX_STREAM_IMAGES emptySurfImage) false)).effs ++
                 FreeSurface (PumpSurfEvents o.events (GbmSurface.mk (some st) (some e)
                   (List.replicate MAX_STREAM_IMAGES emptySurfImage) false)).surf ++
                 [ExtCall.setError EGL_BAD_ALLOC]⟩ := by
              simp [eGbmCreatePlatformWindowSurfaceHook, hdr, hnw, hca, hbit, hco', hcs,
                hcc, hcps, hok]
            rw [hres]
            exact ⟨rfl, by simp [unrefDisplay_mem_FreeSurface]⟩
          | true =>
            by_cases hao : o.addObject = false
            · have hres : eGbmCreatePlatformWindowSurfaceHook o r0 =
                  ⟨CreateOutcome.err, r0, false,
                   (PumpSurfEvents o.events (GbmSurface.mk (some st) (some e)
                     (List.replicate MAX_STREAM_IMAGES emptySurfImage) false)).effs ++
                   FreeSurface (PumpSurfEvents o.events (GbmSurface.mk (some st) (some e)
                     (List.replicate MAX_STREAM_IMAGES emptySurfImage) false)).surf ++
                   [ExtCall.setError EGL_BAD_ALLOC]⟩ := by
                simp [eGbmCreatePlatformWindowSurfaceHook, hdr, hnw, hca, hbit, hco', hcs,
                  hcc, hcps, hok, hao]
              rw [hres]
              exact ⟨rfl, by simp [unrefDisplay_mem_FreeSurface]⟩
            · have hres : (eGbmCreatePlatformWindowSurfaceHook o r0).outcome =
                  CreateOutcome.ok (PumpSurfEvents o.events (GbmSurface.mk (some st) (some e)
                    (List.replicate MAX_STREAM_IMAGES emptySurfImage) false)).surf := by
                simp [eGbmCreatePlatformWindowSurfaceHook, hdr, hnw, hca, hbit, hco', hcs,
                  hcc, hcps, hok, hao]
              rw [hres] at hs
              cases hs

/-- Witness for C7 (amended): a null native window hits the undefined
dereference with the display reference already taken; a bad-configuration
failure leaks the display reference while reporting a typed error; a
stream-creation failure restores the reference count and unrefs the
display. -/
theorem c7_create_failure_rollback_amended_witness :
    (eGbmCreatePlatformWindowSurfaceHook
        (CreateOracle.mk true false none true none true none [] true) 5 =
      ⟨CreateOutcome.undef,
       if (CreateOracle.mk true false none true none true none [] true).dpyResolves
         then 5 + 1 else 5,
       false, []⟩) ∧
    ((eGbmCreatePlatformWindowSurfaceHook
        (CreateOracle.mk true true none true none true none [] true) 5).outcome =
       CreateOutcome.err ∧
     (eGbmCreatePlatformWindowSurfaceHook
        (CreateOracle.mk true true none true none true none [] true) 5).dpyRefCount = 5 + 1 ∧
     ExtCall.unrefDisplay ∉
       (eGbmCreatePlatformWindowSurfaceHook
         (CreateOracle.mk true true none true none true none [] true) 5).effs ∧
     (∃ err, err ≠ EGL_SUCCESS ∧
       ExtCall.setError err ∈
         (eGbmCreatePlatformWindowSurfaceHook
           (CreateOracle.mk true true none true none true none [] true) 5).effs)) ∧
    ((eGbmCreatePlatformWindowSurfaceHook
        (CreateOracle.mk true true (some 0x800) true none true none [] true) 5).dpyRefCount = 5 ∧
     ExtCall.unrefDisplay ∈
       (eGbmCreatePlatformWindowSurfaceHook
         (CreateOracle.mk true true (some 0x800) true none true none [] true) 5).effs) :=
  ⟨(c7_create_failure_rollback_amended
      (CreateOracle.mk true false none true none true none [] true) 5).2.1 rfl,
   (c7_create_failure_rollback_amended
      (CreateOracle.mk true true none true none true none [] true) 5).2.2.2.1
      rfl rfl (Or.inl rfl),
   (c7_create_failure_rollback_amended
      (CreateOracle.mk true true (some 0x800) true none true none [] true) 5).2.2.2.2
      rfl rfl ⟨0x800, rfl, by decide⟩ rfl (by decide)⟩

theorem regStep_preserves_inv (op : RegOp) (o : RegObj) (h : RegInv o) :
    RegInv (regStep op o) := by
  rcases h with ⟨h0, h1⟩ | ⟨h0, h1⟩
  · cases op with
    | resolveAndRef =>
      rw [regStep, if_neg (by omega)]
      exact Or.inl ⟨h0, Nat.succ_le_succ (Nat.zero_le _)⟩
    | unref =>
      rw [regStep, if_neg (by omega)]
      by_cases h2 : o.refCount = 1
      · rw [if_pos h2]
        exact Or.inr ⟨by simp [h0], rfl⟩
      · rw [if_neg h2]
        exact Or.inl ⟨h0, by show 1 ≤ o.refCount - 1; omega⟩
  · cases op with
    | resolveAndRef =>
      rw [regStep, if_pos h1]
      exact Or.inr ⟨h0, h1⟩
    | unref =>
      rw [regStep, if_pos h1]
      exact Or.inr ⟨h0, h1⟩

theorem regRun_preserves_inv :
    ∀ (ops : List RegOp) (o : RegObj), RegInv o → RegInv (regRun ops o) := by
  intro ops
  induction ops with
  | nil => intro o h; exact h
  | cons op rest ih =>
    intro o h
    exact ih _ (regStep_preserves_inv op o h)

/-- C8: starting from a freshly registered object (one reference held by
the registration), any sequence of `resolveAndRef`/`unref` operations keeps
the refcount invariant, fires the destroy action at most once, fires it iff
the reference count has reached zero, and a single step fires it exactly at
an `unref` that transitions the count from one to zero.  (The registry
implementation is absent from the sources; `regStep` is modelled from the
specification.) -/
theorem c8_destroy_fires_exactly_once_at_zero :
    (∀ ops : List RegOp,
        RegInv (regRun ops (RegObj.mk 1 0)) ∧
        (regRun ops (RegObj.mk 1 0)).destroyCount ≤ 1 ∧
        ((regRun ops (RegObj.mk 1 0)).destroyCount = 1 ↔
          (regRun ops (RegObj.mk 1 0)).refCount = 0)) ∧
    (∀ (op : RegOp) (o : RegObj), RegInv o →
        ((regStep op o).destroyCount = o.destroyCount + 1 ↔
          (op = RegOp.unref ∧ o.refCount = 1))) := by
  constructor
  · intro ops
    have hinv : RegInv (regRun ops (RegObj.mk 1 0)) :=
      regRun_preserves_inv ops _ (Or.inl ⟨rfl, le_refl 1⟩)
    refine ⟨hinv, ?_, ?_⟩
    · rcases hinv with ⟨h0, _⟩ | ⟨h0, _⟩ <;> omega
    · rcases hinv with ⟨h0, h1⟩ | ⟨h0, h1⟩ <;> constructor <;> intro h <;> omega
  · intro op o hinv
    rcases hinv with ⟨h0, h1⟩ | ⟨h0, h1⟩
    · cases op with
      | resolveAndRef =>
        rw [regStep, if_neg (by omega)]
        dsimp only
        constructor
        · intro h; omega
        · rintro ⟨h, -⟩; cases h
      | unref =>
        rw [regStep, if_neg (by omega)]
        by_cases h2 : o.refCount = 1
        · rw [if_pos h2]
          exact ⟨fun _ => ⟨rfl, h2⟩, fun _ => rfl⟩
        · rw [if_neg h2]
          dsimp only
          constructor
          · intro h; omega
          · rintro ⟨-, h⟩; exact absurd h h2
    · cases op with
      | resolveAndRef =>
        rw [regStep, if_pos h1]
        constructor
        · intro h; omega
        · rintro ⟨h, -⟩; cases h
      | unref =>
        rw [regStep, if_pos h1]
        constructor
        · intro h; omega
        · rintro ⟨-, h⟩; omega

/-- Witness for C8: ref, unref, unref fires the destroy exactly once, and a
single unref of a one-reference live object fires it. -/
theorem c8_destroy_fires_exactly_once_at_zero_witness :
    (RegInv (regRun [RegOp.resolveAndRef, RegOp.unref, RegOp.unref] (RegObj.mk 1 0)) ∧
     (regRun [RegOp.resolveAndRef, RegOp.unref, RegOp.unref] (RegObj.mk 1 0)).destroyCount ≤ 1 ∧
     ((regRun [RegOp.resolveAndRef, RegOp.unref, RegOp.unref] (RegObj.mk 1 0)).destroyCount = 1 ↔
       (regRun [RegOp.resolveAndRef, RegOp.unref, RegOp.unref] (RegObj.mk 1 0)).refCount = 0)) ∧
    ((regStep RegOp.unref (RegObj.mk 1 0)).destroyCount = (RegObj.mk 1 0).destroyCount + 1 ↔
      (RegOp.unref = RegOp.unref ∧ (RegObj.mk 1 0).refCount = 1)) :=
  ⟨c8_destroy_fires_exactly_once_at_zero.1 [RegOp.resolveAndRef, RegOp.unref, RegOp.unref],
   c8_destroy_fires_exactly_once_at_zero.2 RegOp.unref (RegObj.mk 1 0)
     (Or.inl ⟨rfl, le_refl 1⟩)⟩

/-- Witness for C10: slot 0 holds the acquired image 5. -/
theorem c10_lock_scan_finds_acquired_image_witness :
    (eGbmSurfaceLockFrontBuffer
        (some (GbmSurface.mk none none
          (SurfImage.mk (some 5) none false :: List.replicate 9 emptySurfImage) false))
        [] (LockOracle.mk (some 5) (some (1, 1, 0)) (some (3, 256, 0)) (some 7))).res ≠
      LockResult.undef ∧
    ∃ i, findSlot (fun sl => sl.image == some 5)
          (PumpSurfEvents []
            (GbmSurface.mk none none
              (SurfImage.mk (some 5) none false :: List.replicate 9 emptySurfImage)
              false)).surf.images = some i ∧ i < MAX_STREAM_IMAGES :=
  c10_lock_scan_finds_acquired_image _ _ _ 5 (by decide) rfl (by decide) (by decide)

theorem slotEvolves_refl (img : Nat) (a : SurfImage) : SlotEvolves img a a :=
  ⟨fun _ => rfl, fun h => h, Or.inl rfl⟩

theorem slotEvolves_trans (img : Nat) {a b c : SurfImage}
    (h1 : SlotEvolves img a b) (h2 : SlotEvolves img b c) : SlotEvolves img a c := by
  obtain ⟨p1, q1, r1⟩ := h1
  obtain ⟨p2, q2, r2⟩ := h2
  refine ⟨?_, fun ha => q2 (q1 ha), ?_⟩
  · intro ha
    have hb := p1 ha
    subst hb
    exact p2 ha
  · rcases r2 with h | h
    · rcases r1 with h' | h'
      · exact Or.inl (h.trans h')
      · exact Or.inr (h.trans h')
    · exact Or.inr h

theorem AddSurfImage_pointwise (img : Nat) (newImg : Option Nat) (hni : newImg ≠ some img)
    (surf : GbmSurface) (j : Nat) (sl : SurfImage) (hget : surf.images[j]? = some sl) :
    ∃ sl', (AddSurfImage newImg surf).2.1.images[j]? = some sl' ∧ SlotEvolves img sl sl' := by
  unfold AddSurfImage
  cases hf : findSlot emptySlotPred surf.images with
  | none => exact ⟨sl, hget, slotEvolves_refl img sl⟩
  | some i =>
    have hbody : ∀ sl', (modifySlot (fun s => { s with image := newImg }) i surf.images)[j]? =
        some sl' → SlotEvolves img sl sl' → ∃ sl'',
        (match newImg with
          | none => (false,
              { surf with images := modifySlot (fun s => { s with image := newImg }) i surf.images },
              [ExtCall.createImage none])
          | some img0 => (true,
              { surf with images := modifySlot (fun s => { s with image := newImg }) i surf.images },
              [ExtCall.createImage (some img0)]) :
          Bool × GbmSurface × List ExtCall).2.1.images[j]? = some sl'' ∧
        SlotEvolves img sl sl'' := by
      intro sl' hg hev
      cases newImg with
      | none => exact ⟨sl', hg, hev⟩
      | some n => exact ⟨sl', hg, hev⟩
    by_cases hij : j = i
    · subst hij
      obtain ⟨sle, hge, hpe⟩ := findSlot_some _ _ _ hf
      rw [hget] at hge
      cases hge
      have hie : sl.image = none ∧ sl.bo = none := by
        simpa [emptySlotPred, Option.isNone_iff_eq_none] using hpe
      refine hbody { sl with image := newImg } ?_ ?_
      · rw [modifySlot_getElem_eq, hget]
        rfl
      · refine ⟨fun h => absurd h (by simp [hie.1]), fun _ => by simpa using hni, Or.inl rfl⟩
    · refine hbody sl ?_ (slotEvolves_refl img sl)
      rw [modifySlot_getElem_ne _ _ _ _ hij]
      exact hget

theorem pointwise_modify (img : Nat) (l : List SurfImage) (i j : Nat) (sl : SurfImage)
    (f : SurfImage → SurfImage)
    (hget : l[j]? = some sl)
    (hf_i : ∀ s, l[i]? = some s →
      s.image ≠ some img ∧ (f s).image ≠ some img ∧ ((f s).bo = s.bo ∨ (f s).bo = none)) :
    ∃ sl', (modifySlot f i l)[j]? = some sl' ∧ SlotEvolves img sl sl' := by
  by_cases hij : j = i
  · subst hij
    obtain ⟨h1, h2, h3⟩ := hf_i sl hget
    refine ⟨f sl, ?_, ⟨fun h => absurd h h1, fun _ => h2, h3⟩⟩
    rw [modifySlot_getElem_eq, hget]
    rfl
  · refine ⟨sl, ?_, slotEvolves_refl img sl⟩
    rw [modifySlot_getElem_ne _ _ _ _ hij]
    exact hget

theorem RemoveSurfImage_pointwise (img imgR : Nat) (hne : imgR ≠ img)
    (surf : GbmSurface) (j : Nat) (sl : SurfImage) (hget : surf.images[j]? = some sl) :
    ∃ sl', (RemoveSurfImage imgR surf).1.images[j]? = some sl' ∧ SlotEvolves img sl sl' := by
  cases hf : findSlot (fun s => s.image == some imgR) surf.images with
  | none =>
    have hr : RemoveSurfImage imgR surf = (surf, []) := by
      unfold RemoveSurfImage
      rw [hf]
    rw [hr]
    exact ⟨sl, hget, slotEvolves_refl img sl⟩
  | some i =>
    cases hgi : surf.images[i]? with
    | none =>
      have hr : RemoveSurfImage imgR surf = (surf, []) := by
        unfold RemoveSurfImage
        simp only [hf, hgi]
      rw [hr]
      exact ⟨sl, hget, slotEvolves_refl img sl⟩
    | some sli =>
      obtain ⟨sle, hge, hpe⟩ := findSlot_some _ _ _ hf
      rw [hgi] at hge
      cases hge
      have hsliimg : sli.image = some imgR := by simpa using hpe
      have hinot : ∀ s, surf.images[i]? = some s → s.image ≠ some img := by
        intro s hs
        rw [hgi] at hs
        cases hs
        rw [hsliimg]
        simp [hne]
      cases hlk : sli.locked with
      | false =>
        cases hbo : sli.bo with
        | none =>
          have hr : RemoveSurfImage imgR surf =
              ({ surf with
                 images := modifySlot (fun s => { s with image := none }) i surf.images },
               [ExtCall.destroyImage imgR]) := by
            unfold RemoveSurfImage
            simp only [hf, hgi, hlk, hbo]
          rw [hr]
          exact pointwise_modify img surf.images i j sl _ hget
            (fun s hs => ⟨hinot s hs, by simp, Or.inl rfl⟩)
        | some bb =>
          have hr : RemoveSurfImage imgR surf =
              ({ surf with
                 images := modifySlot (fun s => { s with image := none, bo := none })
                   i surf.images },
               [ExtCall.destroyImage imgR, ExtCall.boDestroy bb]) := by
            unfold RemoveSurfImage
            simp only [hf, hgi, hlk, hbo]
          rw [hr]
          exact pointwise_modify img surf.images i j sl _ hget
            (fun s hs => ⟨hinot s hs, by simp, Or.inr rfl⟩)
      | true =>
        cases hbo : sli.bo with
        | none =>
          have hr : RemoveSurfImage imgR surf =
              ({ surf with
                 images := modifySlot (fun s => { s with image := none }) i surf.images },
               [ExtCall.destroyImage imgR]) := by
            unfold RemoveSurfImage
            simp only [hf, hgi, hlk, hbo]
          rw [hr]
          exact pointwise_modify img surf.images i j sl _ hget
            (fun s hs => ⟨hinot s hs, by simp, Or.inl rfl⟩)
        | some bb =>
          have hr : RemoveSurfImage imgR surf =
              ({ surf with
                 images := modifySlot (fun s => { s with image := none }) i surf.images },
               [ExtCall.destroyImage imgR]) := by
            unfold RemoveSurfImage
            simp only [hf, hgi, hlk, hbo]
          rw [hr]
          exact pointwise_modify img surf.images i j sl _ hget
            (fun s hs => ⟨hinot s hs, by simp, Or.inl rfl⟩)

theorem PumpLoop_pointwise (img : Nat) :
    ∀ (evs : List StreamEvent) (surf : GbmSurface),
      (∀ e ∈ evs, evAllowed img e = true) →
      ∀ (j : Nat) (sl : SurfImage), surf.images[j]? = some sl →
      ∃ sl', (PumpLoop evs surf).surf.images[j]? = some sl' ∧ SlotEvolves img sl sl' := by
  intro evs
  induction evs with
  | nil => exact fun surf _ j sl h => ⟨sl, h, slotEvolves_refl img sl⟩
  | cons ev rest ih =>
    intro surf hall j sl hget
    have hall_rest : ∀ e ∈ rest, evAllowed img e = true :=
      fun e he => hall e (List.mem_cons_of_mem _ he)
    cases ev with
    | available =>
      rw [PumpLoop_available]
      exact ⟨sl, hget, slotEvolves_refl img sl⟩
    | add newImg =>
      have hni : newImg ≠ some img := by
        have h := hall _ (List.mem_cons_self _ _)
        cases newImg with
        | none => simp
        | some n =>
          simp only [evAllowed, Bool.not_eq_true'] at h
          simp only [ne_eq, Option.some.injEq]
          intro hc
          rw [hc] at h
          simp at h
      obtain ⟨sl1, hget1, hev1⟩ := AddSurfImage_pointwise img newImg hni surf j sl hget
      rw [PumpLoop_add]
      by_cases hb : (AddSurfImage newImg surf).1 = false
      · rw [if_pos hb]
        exact ⟨sl1, hget1, hev1⟩
      · rw [if_neg hb]
        by_cases hfi : (AddSurfImage newImg surf).2.1.freeImages = true
        · rw [if_pos hfi]
          exact ⟨sl1, hget1, hev1⟩
        · rw [if_neg hfi]
          obtain ⟨sl2, hget2, hev2⟩ := ih (AddSurfImage newImg surf).2.1 hall_rest j sl1 hget1
          exact ⟨sl2, hget2, slotEvolves_trans img hev1 hev2⟩
    | remove imgR =>
      have hne : imgR ≠ img := by
        have h := hall _ (List.mem_cons_self _ _)
        simp only [evAllowed, Bool.not_eq_true'] at h
        intro hc
        rw [hc] at h
        simp at h
      obtain ⟨sl1, hget1, hev1⟩ := RemoveSurfImage_pointwise img imgR hne surf j sl hget
      rw [PumpLoop_remove]
      by_cases hfi : (RemoveSurfImage imgR surf).1.freeImages = true
      · rw [if_pos hfi]
        exact ⟨sl1, hget1, hev1⟩
      · rw [if_neg hfi]
        obtain ⟨sl2, hget2, hev2⟩ := ih (RemoveSurfImage imgR surf).1 hall_rest j sl1 hget1
        exact ⟨sl2, hget2, slotEvolves_trans img hev1 hev2⟩

theorem PumpSurfEvents_pointwise (img : Nat) (evs : List StreamEvent) (surf : GbmSurface)
    (hall : ∀ e ∈ evs, evAllowed img e = true)
    (j : Nat) (sl : SurfImage) (hget : surf.images[j]? = some sl) :
    ∃ sl', (PumpSurfEvents evs surf).surf.images[j]? = some sl' ∧ SlotEvolves img sl sl' :=
  PumpLoop_pointwise img evs { surf with freeImages := false } hall j sl hget

theorem PumpSurfEvents_pointwise_rev (img : Nat) (evs : List StreamEvent) (surf : GbmSurface)
    (hall : ∀ e ∈ evs, evAllowed img e = true)
    (j : Nat) (sl' : SurfImage)
    (hg' : (PumpSurfEvents evs surf).surf.images[j]? = some sl') :
    ∃ sl0, surf.images[j]? = some sl0 ∧ SlotEvolves img sl0 sl' := by
  have hlt : j < surf.images.length := by
    have h := getElem?_some_lt hg'
    rwa [PumpSurfEvents_images_length] at h
  have hg0 : surf.images[j]? = some surf.images[j] := List.getElem?_eq_getElem hlt
  obtain ⟨sl'', hg'', hev⟩ := PumpSurfEvents_pointwise img evs surf hall j _ hg0
  rw [hg'] at hg''
  cases hg''
  exact ⟨surf.images[j], hg0, hev⟩

theorem AddSurfImage_effs (newImg : Option Nat) (surf : GbmSurface) :
    ∀ c ∈ (AddSurfImage newImg surf).2.2, ∃ x, c = ExtCall.createImage x := by
  intro c hc
  unfold AddSurfImage at hc
  cases hf : findSlot emptySlotPred surf.images <;> rw [hf] at hc <;>
    cases newImg <;> simp at hc <;> exact ⟨_, hc⟩

theorem RemoveSurfImage_effs (imgR : Nat) (surf : GbmSurface) :
    ∀ c ∈ (RemoveSurfImage imgR surf).2,
      (∃ x, c = ExtCall.destroyImage x) ∨ (∃ x, c = ExtCall.boDestroy x) := by
  intro c hc
  cases hf : findSlot (fun s => s.image == some imgR) surf.images with
  | none =>
    have hr : RemoveSurfImage imgR surf = (surf, []) := by
      unfold RemoveSurfImage
      rw [hf]
    rw [hr] at hc
    simp at hc
  | some i =>
    cases hgi : surf.images[i]? with
    | none =>
      have hr : RemoveSurfImage imgR surf = (surf, []) := by
        unfold RemoveSurfImage
        simp only [hf, hgi]
      rw [hr] at hc
      simp at hc
    | some sli =>
      cases hlk : sli.locked with
      | false =>
        cases hbo : sli.bo with
        | none =>
          have hr : (RemoveSurfImage imgR surf).2 = [ExtCall.destroyImage imgR] := by
            unfold RemoveSurfImage
            simp only [hf, hgi, hlk, hbo]
          rw [hr] at hc
          simp at hc
          exact Or.inl ⟨_, hc⟩
        | some bb =>
          have hr : (RemoveSurfImage imgR surf).2 =
              [ExtCall.destroyImage imgR, ExtCall.boDestroy bb] := by
            unfold RemoveSurfImage
            simp only [hf, hgi, hlk, hbo]
          rw [hr] at hc
          simp at hc
          rcases hc with h | h
          · exact Or.inl ⟨_, h⟩
          · exact Or.inr ⟨_, h⟩
      | true =>
        cases hbo : sli.bo with
        | none =>
          have hr : (RemoveSurfImage imgR surf).2 = [ExtCall.destroyImage imgR] := by
            unfold RemoveSurfImage
            simp only [hf, hgi, hlk, hbo]
          rw [hr] at hc
          simp at hc
          exact Or.inl ⟨_, hc⟩
        | some bb =>
          have hr : (RemoveSurfImage imgR surf).2 = [ExtCall.destroyImage imgR] := by
            unfold RemoveSurfImage
            simp only [hf, hgi, hlk, hbo]
          rw [hr] at hc
          simp at hc
          exact Or.inl ⟨_, hc⟩

theorem PumpLoop_effs_kinds :
    ∀ (evs : List StreamEvent) (surf : GbmSurface),
      ∀ c ∈ (PumpLoop evs surf).effs,
        (∃ x, c = ExtCall.createImage x) ∨ (∃ x, c = ExtCall.destroyImage x) ∨
        (∃ x, c = ExtCall.boDestroy x) := by
  intro evs
  induction evs with
  | nil => intro surf c hc; rw [PumpLoop_nil] at hc; simp at hc
  | cons ev rest ih =>
    intro surf c hc
    cases ev with
    | available =>
      rw [PumpLoop_available] at hc
      simp at hc
    | add newImg =>
      rw [PumpLoop_add] at hc
      by_cases hb : (AddSurfImage newImg surf).1 = false
      · rw [if_pos hb] at hc
        exact Or.inl (AddSurfImage_effs newImg surf c hc)
      · rw [if_neg hb] at hc
        by_cases hfi : (AddSurfImage newImg surf).2.1.freeImages = true
        · rw [if_pos hfi] at hc
          exact Or.inl (AddSurfImage_effs newImg surf c hc)
        · rw [if_neg hfi] at hc
          have hc' : c ∈ (AddSurfImage newImg surf).2.2 ++
              (PumpLoop rest (AddSurfImage newImg surf).2.1).effs := hc
          rcases List.mem_append.mp hc' with h | h
          · exact Or.inl (AddSurfImage_effs newImg surf c h)
          · exact ih _ c h
    | remove imgR =>
      rw [PumpLoop_remove] at hc
      by_cases hfi : (RemoveSurfImage imgR surf).1.freeImages = true
      · rw [if_pos hfi] at hc
        rcases RemoveSurfImage_effs imgR surf c hc with h | h
        · exact Or.inr (Or.inl h)
        · exact Or.inr (Or.inr h)
      · rw [if_neg hfi] at hc
        have hc' : c ∈ (RemoveSurfImage imgR surf).2 ++
            (PumpLoop rest (RemoveSurfImage imgR surf).1).effs := hc
        rcases List.mem_append.mp hc' with h | h
        · rcases RemoveSurfImage_effs imgR surf c h with h' | h'
          · exact Or.inr (Or.inl h')
          · exact Or.inr (Or.inr h')
        · exact ih _ c h

theorem lock_cache_miss_success
    (surf : GbmSurface) (evs : List StreamEvent) (o : LockOracle)
    (img b i : Nat) (sl : SurfImage) (q e : Nat × Nat × Nat)
    (hok : (PumpSurfEvents evs surf).ok = true)
    (ho : o = LockOracle.mk (some img) (some q) (some e) (some b))
    (hfind : findSlot (fun s => s.image == some img)
      (PumpSurfEvents evs surf).surf.images = some i)
    (hget : (PumpSurfEvents evs surf).surf.images[i]? = some sl)
    (hbo : sl.bo = none) :
    eGbmSurfaceLockFrontBuffer (some surf) evs o =
      ⟨LockResult.ok b,
       some (GbmSurface.mk (PumpSurfEvents evs surf).surf.stream
         (PumpSurfEvents evs surf).surf.egl
         (modifySlot (fun s => { s with bo := some b }) i
           (modifySlot (fun s => { s with locked := true }) i
             (PumpSurfEvents evs surf).surf.images))
         false),
       (PumpSurfEvents evs surf).remaining,
       ((PumpSurfEvents evs surf).effs ++ [ExtCall.streamAcquire (some img)]) ++
         [ExtCall.exportQuery img, ExtCall.exportImage img,
          ExtCall.boImport (some b)]⟩ := by
  subst ho
  have hget2 : (modifySlot (fun s => { s with locked := true }) i
      (PumpSurfEvents evs surf).surf.images)[i]? = some { sl with locked := true } := by
    rw [modifySlot_getElem_eq, hget]
    rfl
  simp only [eGbmSurfaceLockFrontBuffer, hok, Bool.true_eq_false, if_false,
    hfind, hget2, hbo]

theorem lock_cache_hit_success
    (surf : GbmSurface) (evs : List StreamEvent) (o : LockOracle)
    (img b i : Nat) (sl : SurfImage)
    (hok : (PumpSurfEvents evs surf).ok = true)
    (hacq : o.acquire = some img)
    (hfind : findSlot (fun s => s.image == some img)
      (PumpSurfEvents evs surf).surf.images = some i)
    (hget : (PumpSurfEvents evs surf).surf.images[i]? = some sl)
    (hbo : sl.bo = some b) :
    eGbmSurfaceLockFrontBuffer (some surf) evs o =
      ⟨LockResult.ok b,
       some (GbmSurface.mk (PumpSurfEvents evs surf).surf.stream
         (PumpSurfEvents evs surf).surf.egl
         (modifySlot (fun s => { s with locked := true }) i
           (PumpSurfEvents evs surf).surf.images)
         false),
       (PumpSurfEvents evs surf).remaining,
       (PumpSurfEvents evs surf).effs ++ [ExtCall.streamAcquire (some img)]⟩ := by
  have hget2 : (modifySlot (fun s => { s with locked := true }) i
      (PumpSurfEvents evs surf).surf.images)[i]? = some { sl with locked := true } := by
    rw [modifySlot_getElem_eq, hget]
    rfl
  simp only [eGbmSurfaceLockFrontBuffer, hok, hacq, Bool.true_eq_false, if_false,
    hfind, hget2, hbo]

theorem release_live_eq (surf : GbmSurface) (b i img : Nat) (sl : SurfImage)
    (hfind : findSlot (fun s => s.bo == some b) surf.images = some i)
    (hget : surf.images[i]? = some sl)
    (himg : sl.image = some img) :
    eGbmSurfaceReleaseBuffer (some surf) (some b) =
      ⟨some { surf with
         images := modifySlot (fun s => { s with locked := false }) i surf.images },
       [ExtCall.streamRelease img none]⟩ := by
  simp only [eGbmSurfaceReleaseBuffer, hfind, hget, himg]

/-- C6: for a frame identity the pipeline never removes (and never
re-announces), lock → release → lock of that identity returns the same
buffer object on the second lock as on the first, and the second lock makes
no export-query, export, or import call: the buffer object cached on the
slot by the first lock is reused. -/
theorem c6_lock_release_lock_returns_cached_bo
    (surf : GbmSurface) (img b i : Nat)
    (evs1 evs2 : List StreamEvent) (o1 o2 : LockOracle)
    (q e : Nat × Nat × Nat)
    (hget : surf.images[i]? = some (SurfImage.mk (some img) none false))
    (huniq : ∀ (j : Nat) (sl : SurfImage), j ≠ i → surf.images[j]? = some sl →
      sl.image ≠ some img)
    (hbofresh : ∀ sl ∈ surf.images, sl.bo ≠ some b)
    (hevs1 : ∀ ev ∈ evs1, evAllowed img ev = true)
    (hevs2 : ∀ ev ∈ evs2, evAllowed img ev = true)
    (hok1 : (PumpSurfEvents evs1 surf).ok = true)
    (ho1 : o1 = LockOracle.mk (some img) (some q) (some e) (some b))
    (hacq2 : o2.acquire = some img)
    (hok2 : ∀ s, (eGbmSurfaceReleaseBuffer
        (eGbmSurfaceLockFrontBuffer (some surf) evs1 o1).surf (some b)).surf = some s →
      (PumpSurfEvents evs2 s).ok = true) :
    (eGbmSurfaceLockFrontBuffer (some surf) evs1 o1).res = LockResult.ok b ∧
    (eGbmSurfaceReleaseBuffer
      (eGbmSurfaceLockFrontBuffer (some surf) evs1 o1).surf (some b)).effs =
      [ExtCall.streamRelease img none] ∧
    (eGbmSurfaceLockFrontBuffer
      (eGbmSurfaceReleaseBuffer
        (eGbmSurfaceLockFrontBuffer (some surf) evs1 o1).surf (some b)).surf
      evs2 o2).res = LockResult.ok b ∧
    ∀ c ∈ (eGbmSurfaceLockFrontBuffer
      (eGbmSurfaceReleaseBuffer
        (eGbmSurfaceLockFrontBuffer (some surf) evs1 o1).surf (some b)).surf
      evs2 o2).effs,
      (∀ x, c ≠ ExtCall.exportQuery x) ∧ (∀ x, c ≠ ExtCall.exportImage x) ∧
      (∀ x, c ≠ ExtCall.boImport x) := by
  have hslotI : (PumpSurfEvents evs1 surf).surf.images[i]? =
      some (SurfImage.mk (some img) none false) := by
    obtain ⟨sl', hg, hev⟩ := PumpSurfEvents_pointwise img evs1 surf hevs1 i _ hget
    have heq := hev.1 rfl
    rw [heq] at hg
    exact hg
  have hothers1 : ∀ (j : Nat) (sl' : SurfImage), j ≠ i →
      (PumpSurfEvents evs1 surf).surf.images[j]? = some sl' →
      sl'.image ≠ some img ∧ sl'.bo ≠ some b := by
    intro j sl' hj hg'
    obtain ⟨sl0, hg0, hev⟩ := PumpSurfEvents_pointwise_rev img evs1 surf hevs1 j sl' hg'
    refine ⟨hev.2.1 (huniq j sl0 hj hg0), ?_⟩
    rcases hev.2.2 with h | h
    · rw [h]
      exact hbofresh sl0 (mem_of_getElem?_some hg0)
    · rw [h]
      simp
  have hfind1 : findSlot (fun s => s.image == some img)
      (PumpSurfEvents evs1 surf).surf.images = some i := by
    refine findSlot_eq_some_of _ _ i _ hslotI (by simp) ?_
    intro j slj hji hgj
    have hne := (hothers1 j slj (by omega) hgj).1
    simp [beq_eq_false_iff_ne, hne]
  have hL1 := lock_cache_miss_success surf evs1 o1 img b i _ q e hok1 ho1 hfind1 hslotI rfl
  have hAi : (modifySlot (fun s => { s with bo := some b }) i
      (modifySlot (fun s => { s with locked := true }) i
        (PumpSurfEvents evs1 surf).surf.images))[i]? =
      some (SurfImage.mk (some img) (some b) true) := by
    rw [modifySlot_getElem_eq, modifySlot_getElem_eq, hslotI]
    rfl
  have hAothers : ∀ (j : Nat) (sl' : SurfImage), j ≠ i →
      (modifySlot (fun s => { s with bo := some b }) i
        (modifySlot (fun s => { s with locked := true }) i
          (PumpSurfEvents evs1 surf).surf.images))[j]? = some sl' →
      sl'.image ≠ some img ∧ sl'.bo ≠ some b := by
    intro j sl' hj hg'
    rw [modifySlot_getElem_ne _ _ _ _ hj, modifySlot_getElem_ne _ _ _ _ hj] at hg'
    exact hothers1 j sl' hj hg'
  have hfindR : findSlot (fun s => s.bo == some b)
      (modifySlot (fun s => { s with bo := some b }) i
        (modifySlot (fun s => { s with locked := true }) i
          (PumpSurfEvents evs1 surf).surf.images)) = some i := by
    refine findSlot_eq_some_of _ _ i _ hAi (by simp) ?_
    intro j slj hji hgj
    have hne := (hAothers j slj (by omega) hgj).2
    simp [beq_eq_false_iff_ne, hne]
  have hR := release_live_eq
    (GbmSurface.mk (PumpSurfEvents evs1 surf).surf.stream
      (PumpSurfEvents evs1 surf).surf.egl
      (modifySlot (fun s => { s with bo := some b }) i
        (modifySlot (fun s => { s with locked := true }) i
          (PumpSurfEvents evs1 surf).surf.images))
      false)
    b i img _ hfindR hAi rfl
  have hBi : (modifySlot (fun s => { s with locked := false }) i
      (modifySlot (fun s => { s with bo := some b }) i
        (modifySlot (fun s => { s with locked := true }) i
          (PumpSurfEvents evs1 surf).surf.images)))[i]? =
      some (SurfImage.mk (some img) (some b) false) := by
    rw [modifySlot_getElem_eq, hAi]
    rfl
  have hBothers : ∀ (j : Nat) (sl' : SurfImage), j ≠ i →
      (modifySlot (fun s => { s with locked := false }) i
        (modifySlot (fun s => { s with bo := some b }) i
          (modifySlot (fun s => { s with locked := true }) i
            (PumpSurfEvents evs1 surf).surf.images)))[j]? = some sl' →
      sl'.image ≠ some img ∧ sl'.bo ≠ some b := by
    intro j sl' hj hg'
    rw [modifySlot_getElem_ne _ _ _ _ hj] at hg'
    exact hAothers j sl' hj hg'
  have hok2' : (PumpSurfEvents evs2
      (GbmSurface.mk (PumpSurfEvents evs1 surf).surf.stream
        (PumpSurfEvents evs1 surf).surf.egl
        (modifySlot (fun s => { s with locked := false }) i
          (modifySlot (fun s => { s with bo := some b }) i
            (modifySlot (fun s => { s with locked := true }) i
              (PumpSurfEvents evs1 surf).surf.images)))
        false)).ok = true := by
    apply hok2
    simp only [hL1, hR]
  have hslotI2 : (PumpSurfEvents evs2
      (GbmSurface.mk (PumpSurfEvents evs1 surf).surf.stream
        (PumpSurfEvents evs1 surf).surf.egl
        (modifySlot (fun s => { s with locked := false }) i
          (modifySlot (fun s => { s with bo := some b }) i
            (modifySlot (fun s => { s with locked := true }) i
              (PumpSurfEvents evs1 surf).surf.images)))
        false)).surf.images[i]? = some (SurfImage.mk (some img) (some b) false) := by
    obtain ⟨sl', hg, hev⟩ := PumpSurfEvents_pointwise img evs2
      (GbmSurface.mk (PumpSurfEvents evs1 surf).surf.stream
        (PumpSurfEvents evs1 surf).surf.egl
        (modifySlot (fun s => { s with locked := false }) i
          (modifySlot (fun s => { s with bo := some b }) i
            (modifySlot (fun s => { s with locked := true }) i
              (PumpSurfEvents evs1 surf).surf.images)))
        false) hevs2 i _ hBi
    have heq := hev.1 rfl
    rw [heq] at hg
    exact hg
  have hothers2 : ∀ (j : Nat) (sl' : SurfImage), j ≠ i →
      (PumpSurfEvents evs2
        (GbmSurface.mk (PumpSurfEvents evs1 surf).surf.stream
          (PumpSurfEvents evs1 surf).surf.egl
          (modifySlot (fun s => { s with locked := false }) i
            (modifySlot (fun s => { s with bo := some b }) i
              (modifySlot (fun s => { s with locked := true }) i
                (PumpSurfEvents evs1 surf).surf.images)))
          false)).surf.images[j]? = some sl' →
      sl'.image ≠ some img := by
    intro j sl' hj hg'
    obtain ⟨sl0, hg0, hev⟩ := PumpSurfEvents_pointwise_rev img evs2 _ hevs2 j sl' hg'
    exact hev.2.1 (hBothers j sl0 hj hg0).1
  have hfind2 : findSlot (fun s => s.image == some img)
      (PumpSurfEvents evs2
        (GbmSurface.mk (PumpSurfEvents evs1 surf).surf.stream
          (PumpSurfEvents evs1 surf).surf.egl
          (modifySlot (fun s => { s with locked := false }) i
            (modifySlot (fun s => { s with bo := some b }) i
              (modifySlot (fun s => { s with locked := true }) i
                (PumpSurfEvents evs1 surf).surf.images)))
          false)).surf.images = some i := by
    refine findSlot_eq_some_of _ _ i _ hslotI2 (by simp) ?_
    intro j slj hji hgj
    have hne := hothers2 j slj (by omega) hgj
    simp [beq_eq_false_iff_ne, hne]
  have hL2 := lock_cache_hit_success _ evs2 o2 img b i _ hok2' hacq2 hfind2 hslotI2 rfl
  refine ⟨?_, ?_, ?_, ?_⟩
  · rw [hL1]
  · simp only [hL1, hR]
  · simp only [hL1, hR, hL2]
  · intro c hc
    simp only [hL1, hR, hL2] at hc
    rcases List.mem_append.mp hc with h | h
    · rcases PumpLoop_effs_kinds evs2 _ c h with ⟨x, rfl⟩ | ⟨x, rfl⟩ | ⟨x, rfl⟩ <;>
        exact ⟨fun y => by simp, fun y => by simp, fun y => by simp⟩
    · simp at h
      subst h
      exact ⟨fun y => by simp, fun y => by simp, fun y => by simp⟩

/-- Witness for C6: slot 0 holds frame 1 with no cached buffer object; the
first lock materializes buffer object 7, the release returns the frame, and
the second lock returns 7 again from the cache. -/
theorem c6_lock_release_lock_returns_cached_bo_witness :
    (eGbmSurfaceLockFrontBuffer
      (some (GbmSurface.mk none none
        (SurfImage.mk (some 1) none false :: List.replicate 9 emptySurfImage) false))
      [] (LockOracle.mk (some 1) (some (1, 1, 0)) (some (3, 256, 0)) (some 7))).res =
        LockResult.ok 7 ∧
    (eGbmSurfaceReleaseBuffer
      (eGbmSurfaceLockFrontBuffer
        (some (GbmSurface.mk none none
          (SurfImage.mk (some 1) none false :: List.replicate 9 emptySurfImage) false))
        [] (LockOracle.mk (some 1) (some (1, 1, 0)) (some (3, 256, 0)) (some 7))).surf
      (some 7)).effs = [ExtCall.streamRelease 1 none] ∧
    (eGbmSurfaceLockFrontBuffer
      (eGbmSurfaceReleaseBuffer
        (eGbmSurfaceLockFrontBuffer
          (some (GbmSurface.mk none none
            (SurfImage.mk (some 1) none false :: List.replicate 9 emptySurfImage) false))
          [] (LockOracle.mk (some 1) (some (1, 1, 0)) (some (3, 256, 0)) (some 7))).surf
        (some 7)).surf
      [] (LockOracle.mk (some 1) none none none)).res = LockResult.ok 7 ∧
    ∀ c ∈ (eGbmSurfaceLockFrontBuffer
      (eGbmSurfaceReleaseBuffer
        (eGbmSurfaceLockFrontBuffer
          (some (GbmSurface.mk none none
            (SurfImage.mk (some 1) none false :: List.replicate 9 emptySurfImage) false))
          [] (LockOracle.mk (some 1) (some (1, 1, 0)) (some (3, 256, 0)) (some 7))).surf
        (some 7)).surf
      [] (LockOracle.mk (some 1) none none none)).effs,
      (∀ x, c ≠ ExtCall.exportQuery x) ∧ (∀ x, c ≠ ExtCall.exportImage x) ∧
      (∀ x, c ≠ ExtCall.boImport x) :=
  c6_lock_release_lock_returns_cached_bo
    (GbmSurface.mk none none
      (SurfImage.mk (some 1) none false :: List.replicate 9 emptySurfImage) false)
    1 7 0 [] [] (LockOracle.mk (some 1) (some (1, 1, 0)) (some (3, 256, 0)) (some 7))
    (LockOracle.mk (some 1) none none none) (1, 1, 0) (3, 256, 0)
    rfl
    (by
      intro j sl hj hg
      cases j with
      | zero => exact absurd rfl hj
      | succ j =>
        rw [List.getElem?_cons_succ] at hg
        have hmem := mem_of_getElem?_some hg
        rw [List.eq_of_mem_replicate hmem]
        simp [emptySurfImage])
    (by decide)
    (by decide)
    (by decide)
    (by decide)
    rfl
    rfl
    (fun s _ => rfl)
